import Mathlib

/-!
# kubectl-openstack: a shallow embedding of `main.go`

The program is a linear pipeline (`mainE`): check the parsed flags, build the
API clients, infer the management cluster name, find the `OpenStackCluster`
resource, read its identity reference, fetch the secret, decode the embedded
clouds document, decode the local clouds document, merge one key, write the
file back.

Everything outside the repository (Kubernetes API server, client-go, the YAML
codec, the file system) is an explicit oracle in `World`.  Every call that
leaves the process is recorded as an `Event`, so that ordering properties can
be stated on the trace.  Go run-time faults (index out of range, assignment
to an entry of a nil map) are results of their own, distinct from returned
errors.

Go strings are modelled as Lean strings (sequences of code points); the only
separator and prefixes the program looks for are ASCII.
-/

namespace KubectlOpenstack

/-! ## Go run-time values -/

/-- Byte payloads (`[]byte`) are carried around unchanged by the program. -/
abbrev Bytes := String

/-- A run-time panic of the Go program. -/
inductive Panic where
  /-- Index expression `s[i]` with `i ≥ len(s)`. -/
  | indexOutOfRange (i len : Nat)
  /-- Statement `m[k] = v` on a nil map. -/
  | nilMapAssign
  /-- Use of `*p` or `p.f` with `p` nil. -/
  | nilDereference
  deriving DecidableEq, Repr

/-- Errors returned by `mainE`, one constructor per `return` site of `main.go`.
String arguments are the operands of the format verbs, in order; an argument
called `cause` is the message of the wrapped (`%w`) or passed-through error. -/
inductive MainError where
  /-- main.go:66 -/
  | kubeconfigNotSet
  /-- main.go:69 -/
  | cloudsFileNotSet
  /-- main.go:73 -/
  | usage
  /-- main.go:209 -/
  | buildingConfig (cause : String)
  /-- main.go:214 -/
  | creatingClientset (cause : String)
  /-- main.go:219 -/
  | creatingDynamic (cause : String)
  /-- main.go:308 -/
  | unrecognizedURL (url : String)
  /-- main.go:270 -/
  | discoveringGroups (cause : String)
  /-- main.go:284 -/
  | groupNotRegistered (group : String)
  /-- main.go:234 and main.go:242 -/
  | fromServer (cause : String)
  /-- main.go:255 -/
  | clusterNotFound (name : String)
  /-- main.go:258 -/
  | clusterAmbiguous (name : String)
  /-- main.go:290 -/
  | fieldAccess (kind ns name cause : String)
  /-- main.go:294 -/
  | fieldNotFound (kind ns name : String) (path : List String)
  /-- main.go:298 -/
  | fieldEmpty (kind ns name : String) (path : List String)
  /-- main.go:105 -/
  | unsupportedKind (kind : String)
  /-- main.go:110 -/
  | secretGet (cause : String)
  /-- main.go:115 -/
  | secretNoCloudsYaml (name ns : String)
  /-- main.go:121 -/
  | secretUnmarshal (name ns cause : String)
  /-- main.go:125 -/
  | secretNoCloud (name ns : String)
  /-- main.go:130 -/
  | secretManyClouds (name ns : String) (count : Nat) (ks : List String)
  /-- main.go:136 -/
  | readingFile (cause : String)
  /-- main.go:140 -/
  | localUnmarshal (file cause : String)
  /-- main.go:150 -/
  | cloudExists (cloudName file : String)
  /-- main.go:159 -/
  | marshalling (cause : String)
  /-- main.go:164 -/
  | writingFile (cause : String)
  deriving DecidableEq, Repr

/-- The constant `program` (main.go:26). -/
def program : String := "kubectl-openstack"

/-- Go `strings.Join`. -/
def Join (xs : List String) (sep : String) : String := sep.intercalate xs

/-- The text of each error, as built by the `fmt.Errorf` call at its site.
The rendering of the `%q` verb (Go `strconv.Quote`) is the parameter `q`. -/
def MainError.message (q : String → String) : MainError → String
  | .kubeconfigNotSet => "--kubeconfig flag / KUBECONFIG env var not set"
  | .cloudsFileNotSet => "--clouds-file flag not set"
  | .usage => "usage: " ++ program ++ " login [-n NAMESPCE] OPENSTACKCLUSTER"
  | .buildingConfig c => "building config from flags: " ++ c
  | .creatingClientset c => "creating client set from config: " ++ c
  | .creatingDynamic c => "creating dynamic client from config: " ++ c
  | .unrecognizedURL u =>
      "cluster URL " ++ q u ++ " has unrecognized format, expected "
        ++ q "api.MANAGEMENT_CLUSTER..."
  | .discoveringGroups c => "discovering server groups: " ++ c
  | .groupNotRegistered g => "GroupVersion " ++ q g ++ " is not registered with the cluster"
  | .fromServer c => "from server: " ++ c
  | .clusterNotFound n => "cluster with name " ++ q n ++ " not found"
  | .clusterAmbiguous n =>
      "found more than one cluster with name " ++ q n
        ++ ", try re-running with --namespace flag"
  | .fieldAccess k ns n c => k ++ " " ++ ns ++ "/" ++ n ++ ": " ++ c
  | .fieldNotFound k ns n p =>
      k ++ " " ++ ns ++ "/" ++ n ++ " path " ++ q ("." ++ Join p ".") ++ " not found"
  | .fieldEmpty k ns n p =>
      k ++ " " ++ ns ++ "/" ++ n ++ " value for path " ++ q ("." ++ Join p ".") ++ " is empty"
  | .unsupportedKind k =>
      "only .spec.identityRef.kind = \"Secret\" supported but got " ++ q k
  | .secretGet c => c
  | .secretNoCloudsYaml n ns =>
      "secret/" ++ n ++ " in " ++ ns ++ " does not have " ++ q "clouds.yaml" ++ " data field"
  | .secretUnmarshal n ns c =>
      "unmarshaling YAML data from secret/" ++ n ++ " in " ++ ns ++ ": " ++ c
  | .secretNoCloud n ns =>
      "secret/" ++ n ++ " in " ++ ns ++ ": expected single cloud data, got 0"
  | .secretManyClouds n ns count ks =>
      "secret/" ++ n ++ " in " ++ ns ++ ": expected single cloud data, got "
        ++ toString count ++ " (" ++ Join ks ", " ++ ")"
  | .readingFile c => c
  | .localUnmarshal f c => "unmarshaling YAML data from " ++ q f ++ ": " ++ c
  | .cloudExists cn f =>
      "cloud " ++ q cn ++ " already exists in " ++ f ++ ", re-run with --force to overwrite\n"
  | .marshalling c => "marshalling updated clouds YAML: " ++ c
  | .writingFile c => c

/-- How a Go call ends when it does not return normally. -/
inductive Fault where
  /-- A non-nil `error` was returned. -/
  | error (e : MainError)
  /-- The goroutine panicked. -/
  | panic (p : Panic)
  deriving DecidableEq, Repr

deriving instance DecidableEq for Except

/-- Go index expression `s[i]` on a slice: panics when out of range. -/
def index {α : Type} (s : List α) (i : Nat) : Except Fault α :=
  match s[i]? with
  | some a => .ok a
  | none => .error (.panic (.indexOutOfRange i s.length))

/-! ## Go `strings` -/

/-- Go `strings.HasPrefix(s, pre)`. -/
def HasPrefix (s pre : String) : Bool := pre.data.isPrefixOf s.data

/-- First occurrence of the non-empty separator `sep` in `s`: the text before
it and the text after it (`strings.Index` followed by the two slicings of
`genSplit`). -/
def cut (sep : List Char) : List Char → Option (List Char × List Char)
  | [] => if sep.isPrefixOf [] then some ([], []) else none
  | c :: t =>
    if sep.isPrefixOf (c :: t) then some ([], (c :: t).drop sep.length)
    else match cut sep t with
      | some (b, a) => some (c :: b, a)
      | none => none

/-- The loop of Go `genSplit`: at most `k` cuts, the rest of the string is the
last element. -/
def splitLoop (sep : List Char) : Nat → List Char → List (List Char)
  | 0, s => [s]
  | k + 1, s =>
    match cut sep s with
    | some (b, a) => b :: splitLoop sep k a
    | none => [s]

/-- Go `explode(s, n)` (the empty-separator case of `genSplit`): one string per
code point, at most `k + 1` strings. -/
def explode : Nat → List Char → List (List Char)
  | _, [] => []
  | 0, s => [s]
  | k + 1, c :: t => if t = [] then [[c]] else [c] :: explode k t

/-- Go `strings.SplitN(s, sep, n)`: `n = 0` gives no strings, `n < 0` is
unbounded, otherwise at most `n` strings, the last one being the unsplit
remainder.  (The clamp `n > len(s)+1` of `genSplit` only sizes the result
slice.) -/
def SplitN (s sep : String) (n : Int) : List String :=
  if n = 0 then []
  else
    let k : Nat := if n < 0 then s.data.length else (n - 1).toNat
    if sep.data = [] then (explode k s.data).map String.mk
    else (splitLoop sep.data k s.data).map String.mk

/-- Function `getManagementCluster` (main.go:304-311); `url` and `hostname` are
what `clientset.RESTClient().Get().URL()` and its `Hostname()` return. -/
def getManagementCluster (url hostname : String) : Except Fault String :=
  if !HasPrefix hostname "api." then
    .error (.error (.unrecognizedURL url))
  else
    index (SplitN hostname "." 3) 1

/-- The second dot-separated label of a hostname, in the words of the
specification: the text between the first dot and the second dot, or the end
of the hostname when there is no second dot. -/
def secondLabel (hostname : String) : String :=
  String.mk (((hostname.data.dropWhile (fun c => c != '.')).drop 1).takeWhile (fun c => c != '.'))

/-! ## Go maps, `contains`, `keys` -/

/-- Go `map[string]V`: `none` is the nil map, `some m` an allocated map with
entries `m` (keys are unique).  The order of the entries stands for the order
in which a `range` loop visits them, which Go leaves unspecified. -/
abbrev GoMap (V : Type) := Option (AList (fun _ : String => V))

/-- Go `len(m)`; the nil map has length 0. -/
def GoMap.len {V : Type} : GoMap V → Nat
  | none => 0
  | some m => m.entries.length

/-- Go `m[k]` with the comma-ok result. -/
def GoMap.get? {V : Type} : GoMap V → String → Option V
  | none, _ => none
  | some m, k => m.lookup k

/-- Go `m[k]`: the zero value of `V` when the key is absent or the map is nil. -/
def GoMap.get {V : Type} [Inhabited V] (m : GoMap V) (k : String) : V :=
  (m.get? k).getD default

/-- Go `m[k] = v`: panics on the nil map, otherwise adds or replaces the entry. -/
def GoMap.set {V : Type} : GoMap V → String → V → Except Fault (GoMap V)
  | none, _, _ => .error (.panic .nilMapAssign)
  | some m, k, v => .ok (some (m.insert k v))

/-- Function `contains` (main.go:178-186). -/
def contains {α : Type} [DecidableEq α] : List α → α → Bool
  | [], _ => false
  | vv :: s, v => if v = vv then true else contains s v

/-- Function `keys` (main.go:198-204). -/
def keys {V : Type} : GoMap V → List String
  | none => []
  | some m => m.keys

/-- Type `Clouds` (internal/types/types.go:12-14); `V` is the per-cloud value
`map[string]interface{}`, which the program never looks into. -/
structure Clouds (V : Type) where
  /-- Field `Clouds`, JSON key "clouds". -/
  clouds : GoMap V

/-! ## The world outside the process -/

/-- What `unstructured.NestedString` returns: value, found, error. -/
structure NestedResult where
  val : String
  found : Bool
  err : Option String

/-- An `unstructured.Unstructured` object, seen through the accessors the
program uses. -/
structure Unstructured where
  /-- Method `GetKind`. -/
  kind : String
  /-- Method `GetNamespace`. -/
  ns : String
  /-- Method `GetName`. -/
  name : String
  /-- Call `unstructured.NestedString(r.UnstructuredContent(), path...)`. -/
  nestedString : List String → NestedResult

/-- A core/v1 `Secret`. -/
structure Secret where
  name : String
  /-- Field `Namespace`. -/
  ns : String
  /-- Field `Data`, with the comma-ok lookup. -/
  data : String → Option Bytes

/-- An entry of the discovery group list. -/
structure APIGroup where
  /-- Field `PreferredVersion.GroupVersion`. -/
  preferredGroupVersion : String
  /-- Field `PreferredVersion.Version`. -/
  preferredVersion : String

/-- A `schema.GroupVersionResource`. -/
structure GVR where
  group : String
  version : String
  resource : String
  deriving DecidableEq, Repr

/-- The values of the flag variables and `flag.Args()` after `flag.Parse()`
(main.go:38-63), defaults already applied. -/
structure Parsed where
  cloudsFile : String
  force : Bool
  kubeconfig : String
  managementCluster : String
  /-- Variable `namespace`. -/
  ns : String
  args : List String

/-- Scope of the variable of a `for ... range` loop, which decides what a
pointer to it refers to after the loop.  It is selected by the `go` directive
of the module: one variable for the whole loop before Go 1.22, a fresh
variable for each iteration from Go 1.22 on. -/
inductive LoopVar where
  | perLoop
  | perIteration
  deriving DecidableEq, Repr

/-- Everything the program asks of its environment.  An `Except String _`
is a call that may return an error (its message); an `Option String` is the
error of a call that returns nothing else. -/
structure World (V : Type) where
  loopVar : LoopVar
  /-- Call `clientcmd.BuildConfigFromFlags("", kubeconfig)`. -/
  buildConfigFromFlags : String → Option String
  /-- Call `kubernetes.NewForConfig(config)`. -/
  kubernetesNewForConfig : Option String
  /-- Call `dynamic.NewForConfig(config)`. -/
  dynamicNewForConfig : Option String
  /-- Value `clientset.RESTClient().Get().URL()`, printed. -/
  url : String
  /-- Its `Hostname()`. -/
  hostname : String
  /-- Call `clientset.DiscoveryClient.ServerGroups()`. -/
  serverGroups : Except String (List APIGroup)
  /-- Call `dynamic.Resource(gvr).Namespace(ns).Get(ctx, name, ...)`. -/
  resourceGet : GVR → String → String → Except String Unstructured
  /-- Call `dynamic.Resource(gvr).Namespace("").List(ctx, ...)`, its `Items`. -/
  resourceList : GVR → Except String (List Unstructured)
  /-- Call `clientset.CoreV1().Secrets(ns).Get(ctx, name, ...)`. -/
  secretGet : String → String → Except String Secret
  /-- Call `yaml.Unmarshal(data, &clouds)` on a zero `types.Clouds`. -/
  yamlUnmarshal : Bytes → Except String (Clouds V)
  /-- Call `yaml.Marshal(clouds)`. -/
  yamlMarshal : Clouds V → Except String Bytes
  /-- Call `os.ReadFile(path)`. -/
  readFile : String → Except String Bytes
  /-- Call `os.WriteFile(path, data, 0644)`. -/
  writeFile : String → Bytes → Option String

/-- A call that leaves the process. -/
inductive Event where
  | serverGroups
  | resourceGet (gvr : GVR) (ns name : String)
  | resourceList (gvr : GVR)
  | secretGet (ns name : String)
  | readFile (path : String)
  | writeFile (path : String) (data : Bytes)
  /-- main.go:148 -/
  | printOverwriting (cloudName file : String)
  /-- main.go:153 -/
  | printWriting (cloudName file : String)
  /-- main.go:167-171 -/
  | printUsage (cloudName : String)
  deriving DecidableEq, Repr

/-- A (partial) run: the calls made so far, in order, and how it ended. -/
structure Run (α : Type) where
  events : List Event
  result : Except Fault α

namespace Run

/-- Normal return without any call. -/
def ret {α : Type} (a : α) : Run α := ⟨[], .ok a⟩

/-- Sequencing: the second part runs only if the first returned normally. -/
def andThen {α β : Type} (x : Run α) (f : α → Run β) : Run β :=
  match x.result with
  | .ok a => ⟨x.events ++ (f a).events, (f a).result⟩
  | .error e => ⟨x.events, .error e⟩

instance : Monad Run where
  pure := ret
  bind := andThen

/-- Statement `return err`. -/
def fail {α : Type} (e : MainError) : Run α := ⟨[], .error (.error e)⟩

/-- A computation inside the process. -/
def lift {α : Type} (r : Except Fault α) : Run α := ⟨[], r⟩

/-- A call that leaves the process and returns nothing. -/
def emit (ev : Event) : Run Unit := ⟨[ev], .ok ()⟩

/-- A call that leaves the process; its error, if any, is turned into the
error the caller returns by `wrap`. -/
def call {α : Type} (ev : Event) (r : Except String α) (wrap : String → MainError) : Run α :=
  match r with
  | .ok a => ⟨[ev], .ok a⟩
  | .error c => ⟨[ev], .error (.error (wrap c))⟩

/-- A library call inside the process that may return an error. -/
def attempt {α : Type} (r : Except String α) (wrap : String → MainError) : Run α :=
  match r with
  | .ok a => ⟨[], .ok a⟩
  | .error c => ⟨[], .error (.error (wrap c))⟩

end Run

/-! ## The program -/

section Program

variable {V : Type}

open Run

/-- Function `newClients` (main.go:206-223); the clients themselves are the
oracles of `World`. -/
def newClients (w : World V) (kubeconfig : String) : Run Unit :=
  match w.buildConfigFromFlags kubeconfig with
  | some c => fail (.buildingConfig c)
  | none =>
    match w.kubernetesNewForConfig with
    | some c => fail (.creatingClientset c)
    | none =>
      match w.dynamicNewForConfig with
      | some c => fail (.creatingDynamic c)
      | none => ret ()

/-- Local `resource` of `findOpenStackClusterGVR` (main.go:265). -/
def resource : String := "openstackclusters"

/-- Local `group` of `findOpenStackClusterGVR` (main.go:266). -/
def group : String := "infrastructure.cluster.x-k8s.io"

/-- Function `findOpenStackClusterGVR` (main.go:264-285). -/
def findOpenStackClusterGVR (w : World V) : Run GVR := do
  let groups ← call .serverGroups w.serverGroups .discoveringGroups
  match groups.find? (fun g => HasPrefix g.preferredGroupVersion group) with
  | some g => ret { group := group, version := g.preferredVersion, resource := resource }
  | none => fail (.groupNotRegistered group)

/-- What the pointer `r` of `findOpenStackCluster` points to: `&rr` is the
loop variable itself when there is one variable for the whole loop, and the
variable of one iteration (holding that iteration's item for good) otherwise. -/
inductive Ref where
  | loopVariable
  | iterationVariable (item : Unstructured)

/-- Variables of the loop main.go:245-252. -/
structure Scan where
  /-- Variable `r`; `none` is nil. -/
  r : Option Ref
  count : Nat
  /-- Current content of the per-loop variable `rr`. -/
  rr : Option Unstructured

/-- One iteration of the loop main.go:247-252. -/
def scanStep (lv : LoopVar) (name : String) (st : Scan) (item : Unstructured) : Scan :=
  let st := { st with rr := some item }
  if item.name = name then
    { st with
      count := st.count + 1
      r := some (match lv with
        | .perLoop => .loopVariable
        | .perIteration => .iterationVariable item) }
  else st

/-- The loop main.go:245-252 over `list.Items`. -/
def scan (lv : LoopVar) (name : String) (items : List Unstructured) : Scan :=
  items.foldl (scanStep lv name) { r := none, count := 0, rr := none }

/-- The object `r` points to after the loop. -/
def Scan.deref (st : Scan) : Option Unstructured :=
  match st.r with
  | none => none
  | some .loopVariable => st.rr
  | some (.iterationVariable item) => some item

/-- Function `findOpenStackCluster` (main.go:225-262).  The caller uses the
returned pointer right away, so a nil result with a nil error is the nil
dereference it would lead to. -/
def findOpenStackCluster (w : World V) (ns name : String) : Run Unstructured := do
  let gvr ← findOpenStackClusterGVR w
  if ns.length ≠ 0 then
    call (.resourceGet gvr ns name) (w.resourceGet gvr ns name) .fromServer
  else do
    let items ← call (.resourceList gvr) (w.resourceList gvr) .fromServer
    let st := scan w.loopVar name items
    if st.count = 0 then fail (.clusterNotFound name)
    else if st.count > 1 then fail (.clusterAmbiguous name)
    else match st.deref with
      | some r => ret r
      | none => lift (.error (.panic .nilDereference))

/-- Function `unstructuredGetString` (main.go:287-302). -/
def unstructuredGetString (r : Unstructured) (path : List String) : Except Fault String :=
  let res := r.nestedString path
  match res.err with
  | some c => .error (.error (.fieldAccess r.kind r.ns r.name c))
  | none =>
    if !res.found then .error (.error (.fieldNotFound r.kind r.ns r.name path))
    else if res.val.length = 0 then .error (.error (.fieldEmpty r.kind r.ns r.name path))
    else .ok res.val

/-- The argument check and `cluster := flag.Args()[1]` (main.go:65-76). -/
def checkArgs (p : Parsed) : Run String := do
  if p.kubeconfig.length = 0 then fail .kubeconfigNotSet
  else if p.cloudsFile.length = 0 then fail .cloudsFileNotSet
  else do
    let bad ← (if p.args.length ≠ 2 then ret true
      else do
        let a0 ← lift (index p.args 0)
        ret (decide (a0 ≠ "login")))
    if bad then fail .usage
    else lift (index p.args 1)

/-- The management cluster name (main.go:83-88): the flag when it is not
empty, otherwise inferred from the API server URL. -/
def resolveManagementCluster (w : World V) (p : Parsed) : Run String :=
  if p.managementCluster.length = 0 then lift (getManagementCluster w.url w.hostname)
  else ret p.managementCluster

/-- Reading and checking the identity reference (main.go:95-106): the name of
the secret to fetch. -/
def identityRef (r : Unstructured) : Run String := do
  let idRefKind ← lift (unstructuredGetString r ["spec", "identityRef", "kind"])
  let idRefName ← lift (unstructuredGetString r ["spec", "identityRef", "name"])
  if idRefKind ≠ "Secret" then fail (.unsupportedKind idRefKind)
  else ret idRefName

/-- Decoding the secret and the cloud-count check (main.go:113-131). -/
def secretCloudsOf (w : World V) (secret : Secret) : Run (Clouds V) :=
  match secret.data "clouds.yaml" with
  | none => fail (.secretNoCloudsYaml secret.name secret.ns)
  | some cloudsYaml => do
    let secretClouds ← attempt (w.yamlUnmarshal cloudsYaml)
      (.secretUnmarshal secret.name secret.ns)
    if secretClouds.clouds.len = 0 then fail (.secretNoCloud secret.name secret.ns)
    else if secretClouds.clouds.len > 1 then
      let ks := keys secretClouds.clouds
      fail (.secretManyClouds secret.name secret.ns ks.length ks)
    else ret secretClouds

/-- Reading and decoding the local clouds file (main.go:133-141). -/
def readLocalClouds (w : World V) (cloudsFile : String) : Run (Clouds V) := do
  let cloudsFileData ← call (.readFile cloudsFile) (w.readFile cloudsFile) .readingFile
  attempt (w.yamlUnmarshal cloudsFileData) (.localUnmarshal cloudsFile)

/-- The merge step (main.go:145-156): conflict check, notice, and the
assignment `localClouds.Clouds[cloudName] = secretClouds.Clouds[keys(...)[0]]`.
Returns the document that goes to `yaml.Marshal`. -/
def mergeStep [Inhabited V] (cloudsFile : String) (force : Bool) (cloudName : String)
    (secretClouds localClouds : Clouds V) : Run (Clouds V) := do
  let localCloudsKeys := keys localClouds.clouds
  if contains localCloudsKeys cloudName then
    if force then emit (.printOverwriting cloudName cloudsFile)
    else fail (.cloudExists cloudName cloudsFile)
  else emit (.printWriting cloudName cloudsFile)
  let k ← lift (index (keys secretClouds.clouds) 0)
  let m ← lift (localClouds.clouds.set cloudName (secretClouds.clouds.get k))
  ret { clouds := m }

/-- Serializing and writing the file, and the closing notice
(main.go:157-173). -/
def writeClouds (w : World V) (cloudsFile cloudName : String) (doc : Clouds V) : Run Unit := do
  let cloudsData ← attempt (w.yamlMarshal doc) .marshalling
  match w.writeFile cloudsFile cloudsData with
  | some c => (⟨[.writeFile cloudsFile cloudsData], .error (.error (.writingFile c))⟩ : Run Unit)
  | none => do
    emit (.writeFile cloudsFile cloudsData)
    emit (.printUsage cloudName)

/-- What the run holds once the secret is fetched (main.go:111). -/
structure Fetched where
  cluster : String
  managementCluster : String
  r : Unstructured
  secret : Secret

/-- What the run holds when it gets to main.go:143. -/
structure Gathered (V : Type) extends Fetched where
  secretClouds : Clouds V
  localClouds : Clouds V

/-- The synthesized cloud name (main.go:143). -/
def Gathered.cloudName (g : Gathered V) : String := g.managementCluster ++ "-" ++ g.cluster

/-- The first part of `mainE` (main.go:63-111): from the argument check to the
fetched secret. -/
def fetchSecret (w : World V) (p : Parsed) : Run Fetched := do
  let cluster ← checkArgs p
  newClients w p.kubeconfig
  let managementCluster ← resolveManagementCluster w p
  let r ← findOpenStackCluster w p.ns cluster
  let idRefName ← identityRef r
  let secret ← call (.secretGet r.ns idRefName) (w.secretGet r.ns idRefName) .secretGet
  ret { cluster, managementCluster, r, secret }

/-- The part of `mainE` before the merge (main.go:63-141): everything up to
the decoded local document. -/
def gather (w : World V) (p : Parsed) : Run (Gathered V) := do
  let f ← fetchSecret w p
  let secretClouds ← secretCloudsOf w f.secret
  let localClouds ← readLocalClouds w p.cloudsFile
  ret { f with secretClouds, localClouds }

/-- Function `mainE` (main.go:37-174), from `flag.Parse()` on. -/
def mainE [Inhabited V] (w : World V) (p : Parsed) : Run Unit := do
  let g ← gather w p
  let doc ← mergeStep p.cloudsFile p.force g.cloudName g.secretClouds g.localClouds
  writeClouds w p.cloudsFile g.cloudName doc

/-- Content of the file at `path` after the calls `evs`, when it was `before`:
each write to the path replaces the content. -/
def fileAfter (path : String) (before : Option Bytes) : List Event → Option Bytes
  | [] => before
  | .writeFile q data :: evs =>
    if q = path then fileAfter path (some data) evs else fileAfter path before evs
  | _ :: evs => fileAfter path before evs

end Program

/-! ## Concrete worlds -/

/-- The allocated map with the given entries (later entries first in range
order; an earlier entry overrides a later one with the same key). -/
def mapOf {V : Type} (l : List (String × V)) : GoMap V :=
  some (l.foldr (fun kv m => m.insert kv.1 kv.2) ∅)

/-- An `OpenStackCluster` object whose identity reference is the secret
`secretName`. -/
def clusterObject (ns name secretKind secretName : String) : Unstructured where
  kind := "OpenStackCluster"
  ns := ns
  name := name
  nestedString := fun path =>
    if path = ["spec", "identityRef", "kind"] then ⟨secretKind, true, none⟩
    else if path = ["spec", "identityRef", "name"] then ⟨secretName, true, none⟩
    else ⟨"", false, none⟩

/-- A management cluster at `hostname` serving the given `OpenStackCluster`
objects; the secret `ns/name` holds the payload "ns/name", which decodes to
`secretDoc`; the local clouds file holds "local", which decodes to `localDoc`;
every document serializes to "written". Per-cloud values are plain strings. -/
def demoWorld (hostname : String) (items : List Unstructured)
    (secretDoc localDoc : Clouds String) : World String where
  loopVar := .perLoop
  buildConfigFromFlags := fun _ => none
  kubernetesNewForConfig := none
  dynamicNewForConfig := none
  url := "https://" ++ hostname ++ ":6443"
  hostname := hostname
  serverGroups := .ok [⟨"apps/v1", "v1"⟩, ⟨"infrastructure.cluster.x-k8s.io/v1alpha4", "v1alpha4"⟩]
  resourceGet := fun _ ns name =>
    match items.find? (fun r => r.ns = ns ∧ r.name = name) with
    | some r => .ok r
    | none => .error "not found"
  resourceList := fun _ => .ok items
  secretGet := fun ns name => .ok ⟨name, ns, fun k => if k = "clouds.yaml" then some (ns ++ "/" ++ name) else none⟩
  yamlUnmarshal := fun data => if data = "local" then .ok localDoc else .ok secretDoc
  yamlMarshal := fun _ => .ok "written"
  readFile := fun _ => .ok "local"
  writeFile := fun _ _ => none

/-- Flags of `kubectl-openstack login NAME` with the default files. -/
def demoParsed (force : Bool) (managementCluster ns : String) (args : List String) : Parsed where
  cloudsFile := "/home/u/.config/openstack/clouds.yaml"
  force := force
  kubeconfig := "/home/u/.kube/config"
  managementCluster := managementCluster
  ns := ns
  args := args

/-- What a run of `demoWorld` for cluster `c1` of `org-a` holds at the merge
step. -/
def demoGathered (managementCluster : String) (secretDoc localDoc : Clouds String) :
    Gathered String where
  cluster := "c1"
  managementCluster := managementCluster
  r := clusterObject "org-a" "c1" "Secret" "c1-cloud"
  secret := ⟨"c1-cloud", "org-a", fun k => if k = "clouds.yaml" then some "org-a/c1-cloud" else none⟩
  secretClouds := secretDoc
  localClouds := localDoc

/-! ## Notions used in the statements -/

/-- Number of items named `name`. -/
def nameCount (name : String) (items : List Unstructured) : Nat :=
  items.countP (fun r => decide (r.name = name))

/-- What holds of the loop variables throughout: `r` is set as soon as an item
matched, and whatever it points to exists. -/
def ScanOk (st : Scan) : Prop :=
  (0 < st.count → st.r.isSome) ∧ (st.r.isSome → st.deref.isSome)

/-- With one variable for each iteration, `r` points to a matching item of
the list. -/
def ScanPerIteration (name : String) (items : List Unstructured) (st : Scan) : Prop :=
  ∀ ref, st.r = some ref → ∃ item, ref = .iterationVariable item ∧ item ∈ items ∧ item.name = name

/-- A run that ends with a returned error or normally, not with a panic. -/
def Run.NoPanic {α : Type} (x : Run α) : Prop := ∀ pn, x.result ≠ .error (.panic pn)

/-- The calls `findOpenStackCluster` makes go to the discovery and the dynamic
client only. -/
def Event.isLookup : Event → Bool
  | .serverGroups => true
  | .resourceGet _ _ _ => true
  | .resourceList _ => true
  | _ => false

/-- The API server serves no object with an empty name: every item of a
listing has a non-empty `metadata.name`, and a GET with an empty name is
refused (the dynamic client returns "name is required" without asking the
server). -/
def World.NamesNonEmpty {V : Type} (w : World V) : Prop :=
  (∀ gvr items, w.resourceList gvr = .ok items → ∀ r ∈ items, r.name ≠ "")
  ∧ (∀ gvr ns r, w.resourceGet gvr ns "" ≠ .ok r)

/-! ## Lemmas on the string functions -/

theorem length_eq_zero (s : String) : s.length = 0 ↔ s = "" := by
  obtain ⟨l⟩ := s
  simp [String.length, String.ext_iff]

theorem cut_dot (s : List Char) :
    cut ['.'] s =
      if '.' ∈ s then
        some (s.takeWhile (fun c => c != '.'), (s.dropWhile (fun c => c != '.')).drop 1)
      else none := by
  induction s with
  | nil => simp [cut, List.isPrefixOf]
  | cons c t ih =>
    by_cases hc : c = '.'
    · subst hc
      simp [cut, List.isPrefixOf]
    · have hc2 : ¬ '.' = c := fun h => hc h.symm
      simp only [cut, List.isPrefixOf, ih]
      by_cases ht : '.' ∈ t <;> simp [hc, hc2, ht]

theorem splitLoop_dot_one (s : List Char) :
    (splitLoop ['.'] 1 s)[0]? = some (s.takeWhile (fun c => c != '.')) := by
  simp only [splitLoop, cut_dot]
  by_cases h : '.' ∈ s
  · simp [h]
  · have h2 : ∀ c ∈ s, (c != '.') = true := by
      intro c hc
      have : c ≠ '.' := fun e => h (e ▸ hc)
      simpa using this
    simp [h, List.takeWhile_eq_self_iff.mpr h2]

theorem hasPrefix_api (hostname : String) (h : HasPrefix hostname "api." = true) :
    ∃ rest, hostname = String.mk ('a' :: 'p' :: 'i' :: '.' :: rest) := by
  obtain ⟨l⟩ := hostname
  simp only [HasPrefix] at h
  rcases l with _ | ⟨a, _ | ⟨b, _ | ⟨c, _ | ⟨d, rest⟩⟩⟩⟩ <;> simp [List.isPrefixOf] at h
  obtain ⟨h1, h2, h3, h4⟩ := h
  exact ⟨rest, by rw [← h1, ← h2, ← h3, ← h4]⟩

theorem getManagementCluster_api (url : String) (rest : List Char) :
    getManagementCluster url (String.mk ('a' :: 'p' :: 'i' :: '.' :: rest))
      = .ok (secondLabel (String.mk ('a' :: 'p' :: 'i' :: '.' :: rest))) := by
  have h0 := splitLoop_dot_one rest
  have h1 : splitLoop ['.'] 2 ('a' :: 'p' :: 'i' :: '.' :: rest)
      = ['a', 'p', 'i'] :: splitLoop ['.'] 1 rest := by
    rw [splitLoop]
    simp [cut, List.isPrefixOf]
  simp only [getManagementCluster, HasPrefix, SplitN, secondLabel, index]
  simp [List.isPrefixOf, h1, h0]

/-! ## Lemmas on runs -/

section RunLemmas

variable {α β : Type}

@[simp]
theorem Run.bind_eq (x : Run α) (f : α → Run β) : x >>= f = x.andThen f := rfl

@[simp]
theorem Run.pure_eq (a : α) : (pure a : Run α) = Run.ret a := rfl

theorem Run.andThen_result_ok (x : Run α) (f : α → Run β) (b : β) :
    (x.andThen f).result = .ok b ↔ ∃ a, x.result = .ok a ∧ (f a).result = .ok b := by
  unfold Run.andThen
  cases h : x.result <;> simp

theorem Run.andThen_of_ok (x : Run α) (f : α → Run β) (a : α) (h : x.result = .ok a) :
    x.andThen f = ⟨x.events ++ (f a).events, (f a).result⟩ := by
  unfold Run.andThen
  rw [h]

theorem Run.andThen_of_error (x : Run α) (f : α → Run β) (e : Fault)
    (h : x.result = .error e) : x.andThen f = ⟨x.events, .error e⟩ := by
  unfold Run.andThen
  rw [h]

theorem Run.mem_events_andThen (x : Run α) (f : α → Run β) (ev : Event) :
    ev ∈ (x.andThen f).events ↔
      ev ∈ x.events ∨ ∃ a, x.result = .ok a ∧ ev ∈ (f a).events := by
  unfold Run.andThen
  cases h : x.result <;> simp

@[simp]
theorem Run.ret_events (a : α) : (Run.ret a).events = [] := rfl

@[simp]
theorem Run.ret_result (a : α) : (Run.ret a).result = .ok a := rfl

@[simp]
theorem Run.fail_events (e : MainError) : (Run.fail e : Run α).events = [] := rfl

@[simp]
theorem Run.fail_result (e : MainError) :
    (Run.fail e : Run α).result = .error (.error e) := rfl

@[simp]
theorem Run.lift_events (r : Except Fault α) : (Run.lift r).events = [] := rfl

@[simp]
theorem Run.lift_result (r : Except Fault α) : (Run.lift r).result = r := rfl

@[simp]
theorem Run.emit_events (ev : Event) : (Run.emit ev).events = [ev] := rfl

@[simp]
theorem Run.emit_result (ev : Event) : (Run.emit ev).result = .ok () := rfl

@[simp]
theorem Run.call_events (ev : Event) (r : Except String α) (wrap : String → MainError) :
    (Run.call ev r wrap).events = [ev] := by
  cases r <;> rfl

theorem Run.call_result_ok (ev : Event) (r : Except String α) (wrap : String → MainError)
    (a : α) : (Run.call ev r wrap).result = .ok a ↔ r = .ok a := by
  cases r <;> simp [Run.call]

@[simp]
theorem Run.attempt_events (r : Except String α) (wrap : String → MainError) :
    (Run.attempt r wrap).events = [] := by
  cases r <;> rfl

theorem Run.attempt_result_ok (r : Except String α) (wrap : String → MainError) (a : α) :
    (Run.attempt r wrap).result = .ok a ↔ r = .ok a := by
  cases r <;> simp [Run.attempt]

end RunLemmas

/-! ## Lemmas on `findOpenStackCluster` -/

section FindLemmas

variable {V : Type}

theorem foldl_scanStep_count (lv : LoopVar) (name : String) (items : List Unstructured)
    (st : Scan) :
    (items.foldl (scanStep lv name) st).count = st.count + nameCount name items := by
  induction items generalizing st with
  | nil => simp [nameCount]
  | cons item items ih =>
    rw [List.foldl_cons, ih]
    by_cases h : item.name = name
    · simp [scanStep, h, nameCount, List.countP_cons]
      omega
    · simp [scanStep, h, nameCount, List.countP_cons]

theorem scan_count (lv : LoopVar) (name : String) (items : List Unstructured) :
    (scan lv name items).count = nameCount name items := by
  simp [scan, foldl_scanStep_count]

theorem scanStep_ok (lv : LoopVar) (name : String) (st : Scan) (item : Unstructured)
    (h : ScanOk st) : ScanOk (scanStep lv name st item) := by
  obtain ⟨h1, h2⟩ := h
  by_cases hn : item.name = name
  · cases lv <;> simp [ScanOk, scanStep, hn, Scan.deref]
  · refine ⟨by simpa [scanStep, hn] using h1, ?_⟩
    intro hr
    have hr2 : st.r.isSome := by simpa [scanStep, hn] using hr
    have hd := h2 hr2
    cases hst : st.r with
    | none => simp [hst] at hr2
    | some ref =>
      cases ref with
      | loopVariable => simp [scanStep, hn, Scan.deref, hst]
      | iterationVariable it => simp [scanStep, hn, Scan.deref, hst]

theorem foldl_scanStep_ok (lv : LoopVar) (name : String) (items : List Unstructured)
    (st : Scan) (h : ScanOk st) : ScanOk (items.foldl (scanStep lv name) st) := by
  induction items generalizing st with
  | nil => simpa using h
  | cons item items ih =>
    rw [List.foldl_cons]
    exact ih _ (scanStep_ok lv name st item h)

theorem scan_ok (lv : LoopVar) (name : String) (items : List Unstructured) :
    ScanOk (scan lv name items) :=
  foldl_scanStep_ok lv name items _ (by simp [ScanOk])

theorem foldl_scanStep_perIteration (name : String) (all items : List Unstructured)
    (hsub : ∀ x ∈ items, x ∈ all) (st : Scan) (h : ScanPerIteration name all st) :
    ScanPerIteration name all (items.foldl (scanStep .perIteration name) st) := by
  induction items generalizing st with
  | nil => simpa using h
  | cons item items ih =>
    rw [List.foldl_cons]
    apply ih (fun x hx => hsub x (List.mem_cons_of_mem _ hx))
    by_cases hn : item.name = name
    · intro ref href
      simp [scanStep, hn] at href
      exact ⟨item, href.symm, hsub item (List.mem_cons_self _ _), hn⟩
    · intro ref href
      simp [scanStep, hn] at href
      exact h ref href

theorem scan_perIteration (name : String) (items : List Unstructured) :
    ScanPerIteration name items (scan .perIteration name items) :=
  foldl_scanStep_perIteration name items items (fun _ h => h) _ (by simp [ScanPerIteration])

/-- What `findOpenStackCluster` does after a successful discovery and a
successful listing. -/
theorem findOpenStackCluster_list (w : World V) (name : String) (gvr : GVR)
    (items : List Unstructured)
    (hg : (findOpenStackClusterGVR w).result = .ok gvr)
    (hl : w.resourceList gvr = .ok items) :
    (findOpenStackCluster w "" name).result =
      if nameCount name items = 0 then .error (.error (.clusterNotFound name))
      else if nameCount name items > 1 then .error (.error (.clusterAmbiguous name))
      else match (scan w.loopVar name items).deref with
        | some r => .ok r
        | none => .error (.panic .nilDereference) := by
  simp only [findOpenStackCluster, Run.bind_eq]
  rw [Run.andThen_of_ok _ _ gvr hg]
  simp only [String.length, List.length_nil, ne_eq, not_true_eq_false, ↓reduceIte,
    Run.call, hl, Run.andThen, scan_count]
  by_cases h0 : nameCount name items = 0
  · simp [h0, Run.fail]
  · by_cases h1 : nameCount name items > 1
    · simp [h0, h1, Run.fail]
    · simp only [h0, h1, ↓reduceIte]
      cases (scan w.loopVar name items).deref <;> simp [Run.ret, Run.lift]

theorem foldl_scanStep_rr (lv : LoopVar) (name : String) (items : List Unstructured)
    (st : Scan) :
    (items.foldl (scanStep lv name) st).rr = (items.getLast?).or st.rr := by
  induction items generalizing st with
  | nil => simp
  | cons item items ih =>
    rw [List.foldl_cons, ih]
    have hrr : (scanStep lv name st item).rr = some item := by
      by_cases hn : item.name = name <;> simp [scanStep, hn]
    rw [hrr]
    cases items with
    | nil => simp
    | cons b t =>
      rw [List.getLast?_cons_cons]
      cases hb : (b :: t).getLast? with
      | none => simp at hb
      | some x => simp

theorem foldl_scanStep_perLoop (name : String) (items : List Unstructured) (st : Scan)
    (h : ∀ ref, st.r = some ref → ref = .loopVariable) :
    ∀ ref, (items.foldl (scanStep .perLoop name) st).r = some ref → ref = .loopVariable := by
  induction items generalizing st with
  | nil => simpa using h
  | cons item items ih =>
    rw [List.foldl_cons]
    apply ih
    by_cases hn : item.name = name
    · intro ref href
      simp [scanStep, hn] at href
      exact href.symm
    · intro ref href
      simp [scanStep, hn] at href
      exact h ref href

/-- With one variable for the whole loop, `r` ends up pointing to the last
item of the list, whichever item matched. -/
theorem scan_perLoop_deref (name : String) (items : List Unstructured)
    (h : 0 < nameCount name items) :
    (scan .perLoop name items).deref = items.getLast? := by
  have hok := scan_ok .perLoop name items
  have hr := hok.1 (by rw [scan_count]; exact h)
  have hl := foldl_scanStep_perLoop name items { r := none, count := 0, rr := none } (by simp)
  have hrr := foldl_scanStep_rr .perLoop name items { r := none, count := 0, rr := none }
  cases hst : (scan .perLoop name items).r with
  | none => simp [hst] at hr
  | some ref =>
    have := hl ref hst
    subst this
    simp only [Scan.deref, hst]
    simpa [scan] using hrr

/-- With one variable for each iteration, a unique match is what
`findOpenStackCluster` returns. -/
theorem findOpenStackCluster_perIteration (w : World V) (name : String) (gvr : GVR)
    (items : List Unstructured)
    (hv : w.loopVar = .perIteration)
    (hg : (findOpenStackClusterGVR w).result = .ok gvr)
    (hl : w.resourceList gvr = .ok items)
    (h1 : nameCount name items = 1) :
    ∃ r, (findOpenStackCluster w "" name).result = .ok r ∧ r ∈ items ∧ r.name = name := by
  rw [findOpenStackCluster_list w name gvr items hg hl, hv]
  have hok := scan_ok .perIteration name items
  have hr := hok.1 (by rw [scan_count]; omega)
  have hp := scan_perIteration name items
  cases hst : (scan .perIteration name items).r with
  | none => simp [hst] at hr
  | some ref =>
    obtain ⟨item, rfl, hmem, hname⟩ := hp ref hst
    exact ⟨item, by simp [h1, Scan.deref, hst], hmem, hname⟩

/-- With one variable for the whole loop, a unique match makes
`findOpenStackCluster` return the last item of the list. -/
theorem findOpenStackCluster_perLoop (w : World V) (name : String) (gvr : GVR)
    (items : List Unstructured)
    (hv : w.loopVar = .perLoop)
    (hg : (findOpenStackClusterGVR w).result = .ok gvr)
    (hl : w.resourceList gvr = .ok items)
    (h1 : nameCount name items = 1) :
    ∃ r, (findOpenStackCluster w "" name).result = .ok r ∧ items.getLast? = some r := by
  rw [findOpenStackCluster_list w name gvr items hg hl, hv,
    scan_perLoop_deref name items (by omega)]
  cases hlast : items.getLast? with
  | none =>
    have : items = [] := by simpa using hlast
    subst this
    simp [nameCount] at h1
  | some r => exact ⟨r, by simp [h1], rfl⟩

end FindLemmas

/-! ## Lemmas on the stages of `mainE` -/

section StageLemmas

variable {V : Type}

theorem checkArgs_eq (p : Parsed) :
    checkArgs p = ⟨[],
      if p.kubeconfig.length = 0 then .error (.error .kubeconfigNotSet)
      else if p.cloudsFile.length = 0 then .error (.error .cloudsFileNotSet)
      else match p.args with
        | [a0, a1] => if a0 = "login" then .ok a1 else .error (.error .usage)
        | _ => .error (.error .usage)⟩ := by
  unfold checkArgs
  by_cases hk : p.kubeconfig.length = 0
  · simp [hk, Run.fail]
  · by_cases hc : p.cloudsFile.length = 0
    · simp [hk, hc, Run.fail]
    · simp only [hk, hc, ↓reduceIte, Run.bind_eq]
      rcases hargs : p.args with _ | ⟨a0, _ | ⟨a1, _ | ⟨a2, rest⟩⟩⟩
      · simp [Run.andThen, Run.ret, Run.fail]
      · simp [Run.andThen, Run.ret, Run.fail]
      · by_cases ha : a0 = "login"
        · simp [Run.andThen, Run.ret, Run.fail, Run.lift, index, ha]
        · simp [Run.andThen, Run.ret, Run.fail, Run.lift, index, ha]
      · simp [Run.andThen, Run.ret, Run.fail]

theorem checkArgs_events (p : Parsed) : (checkArgs p).events = [] := by
  rw [checkArgs_eq]

theorem checkArgs_ok (p : Parsed) (cluster : String) :
    (checkArgs p).result = .ok cluster ↔
      p.kubeconfig ≠ "" ∧ p.cloudsFile ≠ "" ∧ p.args = ["login", cluster] := by
  rw [checkArgs_eq]
  have hk : p.kubeconfig.length = 0 ↔ p.kubeconfig = "" := length_eq_zero _
  have hc : p.cloudsFile.length = 0 ↔ p.cloudsFile = "" := length_eq_zero _
  simp only [hk, hc]
  by_cases h1 : p.kubeconfig = ""
  · simp [h1]
  · by_cases h2 : p.cloudsFile = ""
    · simp [h1, h2]
    · simp only [h1, h2, ↓reduceIte, ne_eq, not_false_eq_true, true_and]
      rcases hargs : p.args with _ | ⟨a0, _ | ⟨a1, _ | ⟨a2, rest⟩⟩⟩
      · simp
      · simp
      · by_cases ha : a0 = "login"
        · simp [ha]
        · simp [ha]
      · simp

theorem newClients_events (w : World V) (k : String) : (newClients w k).events = [] := by
  unfold newClients
  split
  · rfl
  · split
    · rfl
    · split <;> rfl

theorem newClients_noPanic (w : World V) (k : String) : (newClients w k).NoPanic := by
  intro pn
  unfold newClients
  split
  · simp
  · split
    · simp
    · split <;> simp

theorem resolveManagementCluster_events (w : World V) (p : Parsed) :
    (resolveManagementCluster w p).events = [] := by
  unfold resolveManagementCluster
  split <;> rfl

theorem getManagementCluster_noPanic (url hostname : String) (pn : Panic) :
    getManagementCluster url hostname ≠ .error (.panic pn) := by
  cases h : HasPrefix hostname "api."
  · simp [getManagementCluster, h]
  · obtain ⟨rest, rfl⟩ := hasPrefix_api hostname h
    rw [getManagementCluster_api]
    simp

theorem resolveManagementCluster_noPanic (w : World V) (p : Parsed) :
    (resolveManagementCluster w p).NoPanic := by
  intro pn
  unfold resolveManagementCluster
  split
  · exact getManagementCluster_noPanic _ _ pn
  · simp

theorem resolveManagementCluster_ok (w : World V) (p : Parsed) (mc : String) :
    (resolveManagementCluster w p).result = .ok mc ↔
      (p.managementCluster ≠ "" ∧ mc = p.managementCluster)
      ∨ (p.managementCluster = "" ∧ HasPrefix w.hostname "api." = true
          ∧ mc = secondLabel w.hostname) := by
  have hk : p.managementCluster.length = 0 ↔ p.managementCluster = "" := length_eq_zero _
  unfold resolveManagementCluster
  by_cases h : p.managementCluster = ""
  · rw [if_pos (hk.mpr h)]
    cases hp : HasPrefix w.hostname "api."
    · simp [h, getManagementCluster, hp]
    · obtain ⟨rest, hrest⟩ := hasPrefix_api w.hostname hp
      simp only [Run.lift_result, h, ne_eq, not_true_eq_false, false_and, true_and, false_or]
      rw [hrest, getManagementCluster_api]
      simp only [Except.ok.injEq]
      exact eq_comm
  · rw [if_neg (fun hh => h (hk.mp hh))]
    simp only [Run.ret_result, Except.ok.injEq, ne_eq, h, not_false_eq_true, true_and,
      false_and, or_false]
    exact eq_comm

theorem findOpenStackClusterGVR_events (w : World V) :
    (findOpenStackClusterGVR w).events = [.serverGroups] := by
  simp only [findOpenStackClusterGVR, Run.bind_eq, Run.andThen, Run.call]
  cases w.serverGroups with
  | error c => rfl
  | ok groups =>
    simp only
    split <;> rfl

theorem findOpenStackCluster_events (w : World V) (ns name : String) :
    ∀ ev ∈ (findOpenStackCluster w ns name).events, ev.isLookup = true := by
  intro ev hev
  simp only [findOpenStackCluster, Run.bind_eq, Run.mem_events_andThen,
    findOpenStackClusterGVR_events, List.mem_singleton] at hev
  rcases hev with rfl | ⟨gvr, -, hev⟩
  · rfl
  · split at hev
    · simp only [Run.call_events, List.mem_singleton] at hev
      subst hev
      rfl
    · simp only [Run.mem_events_andThen, Run.call_events, List.mem_singleton] at hev
      rcases hev with rfl | ⟨items, -, hev⟩
      · rfl
      · split at hev
        · simp at hev
        · split at hev
          · simp at hev
          · split at hev <;> simp at hev

theorem identityRef_events (r : Unstructured) : (identityRef r).events = [] := by
  simp only [identityRef, Run.bind_eq, Run.andThen, Run.lift]
  cases unstructuredGetString r ["spec", "identityRef", "kind"] with
  | error e => rfl
  | ok k =>
    simp only
    cases unstructuredGetString r ["spec", "identityRef", "name"] with
    | error e => rfl
    | ok n =>
      simp only
      split <;> rfl

theorem identityRef_ok (r : Unstructured) (nm : String) :
    (identityRef r).result = .ok nm ↔
      unstructuredGetString r ["spec", "identityRef", "kind"] = .ok "Secret"
      ∧ unstructuredGetString r ["spec", "identityRef", "name"] = .ok nm := by
  simp only [identityRef, Run.bind_eq, Run.andThen, Run.lift]
  cases unstructuredGetString r ["spec", "identityRef", "kind"] with
  | error e => simp
  | ok k =>
    simp only
    cases unstructuredGetString r ["spec", "identityRef", "name"] with
    | error e => simp
    | ok n =>
      simp only
      by_cases hk : k = "Secret"
      · simp [hk]
      · simp [hk]

theorem unstructuredGetString_noPanic (r : Unstructured) (path : List String) (pn : Panic) :
    unstructuredGetString r path ≠ .error (.panic pn) := by
  unfold unstructuredGetString
  simp only
  split
  · simp
  · split
    · simp
    · split <;> simp

theorem unstructuredGetString_ok (r : Unstructured) (path : List String) (v : String)
    (h : unstructuredGetString r path = .ok v) :
    v ≠ "" ∧ (r.nestedString path).val = v ∧ (r.nestedString path).found = true
      ∧ (r.nestedString path).err = none := by
  unfold unstructuredGetString at h
  simp only at h
  split at h
  · simp at h
  · rename_i herr
    split at h
    · simp at h
    · rename_i hfound
      split at h
      · simp at h
      · rename_i hlen
        simp only [Except.ok.injEq] at h
        refine ⟨?_, h, by simpa using hfound, herr⟩
        intro hv
        rw [← h] at hv
        exact hlen (by rw [hv]; rfl)

theorem identityRef_noPanic (r : Unstructured) : (identityRef r).NoPanic := by
  intro pn
  simp only [identityRef, Run.bind_eq, Run.andThen, Run.lift]
  cases hk : unstructuredGetString r ["spec", "identityRef", "kind"] with
  | error e =>
    simp only
    intro h
    exact unstructuredGetString_noPanic r _ pn (by rw [hk, h])
  | ok k =>
    simp only
    cases hn : unstructuredGetString r ["spec", "identityRef", "name"] with
    | error e =>
      simp only
      intro h
      exact unstructuredGetString_noPanic r _ pn (by rw [hn, h])
    | ok n =>
      simp only
      split <;> simp

theorem secretCloudsOf_events (w : World V) (secret : Secret) :
    (secretCloudsOf w secret).events = [] := by
  unfold secretCloudsOf
  split
  · rfl
  · simp only [Run.bind_eq, Run.andThen, Run.attempt]
    cases w.yamlUnmarshal _ with
    | error c => rfl
    | ok c =>
      simp only
      split
      · rfl
      · split <;> rfl

theorem readLocalClouds_events (w : World V) (file : String) :
    (readLocalClouds w file).events = [.readFile file] := by
  simp only [readLocalClouds, Run.bind_eq, Run.andThen, Run.call, Run.attempt]
  cases w.readFile file with
  | error c => rfl
  | ok data =>
    simp only
    cases w.yamlUnmarshal data <;> rfl

theorem mergeStep_events [Inhabited V] (file : String) (force : Bool) (cloudName : String)
    (sc lc : Clouds V) :
    ∀ ev ∈ (mergeStep file force cloudName sc lc).events,
      ev = .printOverwriting cloudName file ∨ ev = .printWriting cloudName file := by
  intro ev hev
  simp only [mergeStep, Run.bind_eq] at hev
  split at hev
  · split at hev
    · simp only [Run.mem_events_andThen, Run.lift_events, Run.ret_events, Run.emit_events,
        List.not_mem_nil, and_false, exists_false, or_false, List.mem_singleton] at hev
      exact Or.inl hev
    · simp [Run.mem_events_andThen] at hev
  · simp only [Run.mem_events_andThen, Run.lift_events, Run.ret_events, Run.emit_events,
      List.not_mem_nil, and_false, exists_false, or_false, List.mem_singleton] at hev
    exact Or.inr hev

theorem writeClouds_events (w : World V) (file cloudName : String) (doc : Clouds V) :
    ∀ ev ∈ (writeClouds w file cloudName doc).events,
      (∃ data, ev = .writeFile file data ∧ w.yamlMarshal doc = .ok data)
      ∨ ev = .printUsage cloudName := by
  intro ev hev
  simp only [writeClouds, Run.bind_eq, Run.mem_events_andThen, Run.attempt_events,
    List.not_mem_nil, false_or, Run.attempt_result_ok] at hev
  obtain ⟨data, hdata, hev⟩ := hev
  split at hev
  · simp at hev
    exact Or.inl ⟨data, hev, hdata⟩
  · simp [Run.mem_events_andThen] at hev
    rcases hev with h | h
    · exact Or.inl ⟨data, h, hdata⟩
    · exact Or.inr h

/-- The secret fetch is the last thing `fetchSecret` does: it happens only
with the name that `identityRef` returned for the resource that was found. -/
theorem fetchSecret_secretGet (w : World V) (p : Parsed) (ns nm : String)
    (h : Event.secretGet ns nm ∈ (fetchSecret w p).events) :
    ∃ cluster r, (checkArgs p).result = .ok cluster
      ∧ (findOpenStackCluster w p.ns cluster).result = .ok r
      ∧ (identityRef r).result = .ok nm ∧ ns = r.ns := by
  simp only [fetchSecret, Run.bind_eq, Run.mem_events_andThen, checkArgs_events,
    newClients_events, resolveManagementCluster_events, identityRef_events,
    List.not_mem_nil, false_or, Run.call_events, List.mem_singleton, Run.ret_events,
    and_false, exists_false, or_false] at h
  obtain ⟨cluster, hc, -, -, mc, -, h⟩ := h
  rcases h with h | ⟨r, hr, nm2, hn, h⟩
  · have := findOpenStackCluster_events w p.ns cluster _ h
    simp [Event.isLookup] at this
  · simp only [Event.secretGet.injEq] at h
    obtain ⟨rfl, rfl⟩ := h
    exact ⟨cluster, r, hc, hr, hn, rfl⟩

theorem fetchSecret_ok (w : World V) (p : Parsed) (f : Fetched)
    (h : (fetchSecret w p).result = .ok f) :
    (checkArgs p).result = .ok f.cluster
    ∧ (resolveManagementCluster w p).result = .ok f.managementCluster
    ∧ (findOpenStackCluster w p.ns f.cluster).result = .ok f.r
    ∧ ∃ nm, (identityRef f.r).result = .ok nm ∧ w.secretGet f.r.ns nm = .ok f.secret := by
  simp only [fetchSecret, Run.bind_eq, Run.andThen_result_ok, Run.ret_result,
    Run.call_result_ok, Except.ok.injEq] at h
  obtain ⟨cluster, hc, -, -, mc, hm, r, hr, nm, hn, secret, hs, rfl⟩ := h
  exact ⟨hc, hm, hr, nm, hn, hs⟩

/-- No secret is fetched after `fetchSecret`. -/
theorem mainE_secretGet [Inhabited V] (w : World V) (p : Parsed) (ns nm : String)
    (h : Event.secretGet ns nm ∈ (mainE w p).events) :
    Event.secretGet ns nm ∈ (fetchSecret w p).events := by
  simp only [mainE, gather, Run.bind_eq, Run.mem_events_andThen, secretCloudsOf_events,
    readLocalClouds_events, List.not_mem_nil, false_or, List.mem_singleton, Run.ret_events,
    and_false, exists_false, or_false, Run.andThen_result_ok] at h
  rcases h with h | ⟨g, -, h⟩
  · rcases h with h | ⟨f, -, c, -, h⟩
    · exact h
    · cases h
  · rcases h with h | ⟨doc, -, h⟩
    · rcases mergeStep_events _ _ _ _ _ _ h with h | h <;> cases h
    · rcases writeClouds_events _ _ _ _ _ h with ⟨_, h, -⟩ | h <;> cases h

theorem Run.error_of_noPanic {α : Type} (x : Run α) (h : x.NoPanic) (e : Fault)
    (he : x.result = .error e) : ∃ m, e = .error m := by
  cases e with
  | error m => exact ⟨m, rfl⟩
  | panic pn => exact absurd he (h pn)

theorem Run.andThen_result_error {α β : Type} (x : Run α) (f : α → Run β) (e : Fault)
    (h : x.result = .error e) : (x.andThen f).result = .error e := by
  rw [Run.andThen_of_error x f e h]

theorem Run.andThen_result_of_ok {α β : Type} (x : Run α) (f : α → Run β) (a : α)
    (h : x.result = .ok a) : (x.andThen f).result = (f a).result := by
  rw [Run.andThen_of_ok x f a h]

/-- An error of the first part is the error of `mainE`. -/
theorem mainE_of_fetchSecret_error [Inhabited V] (w : World V) (p : Parsed) (e : Fault)
    (h : (fetchSecret w p).result = .error e) : (mainE w p).result = .error e := by
  simp only [mainE, gather, Run.bind_eq]
  exact Run.andThen_result_error _ _ e (Run.andThen_result_error _ _ e h)

/-- When the kind of the identity reference does not read as "Secret", the
first part of `mainE` returns an error. -/
theorem fetchSecret_error_of_kind (w : World V) (p : Parsed) (cluster : String)
    (r : Unstructured)
    (hc : (checkArgs p).result = .ok cluster)
    (hr : (findOpenStackCluster w p.ns cluster).result = .ok r)
    (hk : unstructuredGetString r ["spec", "identityRef", "kind"] ≠ .ok "Secret") :
    ∃ m, (fetchSecret w p).result = .error (.error m) := by
  simp only [fetchSecret, Run.bind_eq]
  rw [Run.andThen_result_of_ok _ _ cluster hc]
  cases hn : (newClients w p.kubeconfig).result with
  | error e =>
    obtain ⟨m, rfl⟩ := Run.error_of_noPanic _ (newClients_noPanic w _) e hn
    exact ⟨m, Run.andThen_result_error _ _ _ hn⟩
  | ok u =>
    rw [Run.andThen_result_of_ok _ _ u hn]
    cases hm : (resolveManagementCluster w p).result with
    | error e =>
      obtain ⟨m, rfl⟩ := Run.error_of_noPanic _ (resolveManagementCluster_noPanic w p) e hm
      exact ⟨m, Run.andThen_result_error _ _ _ hm⟩
    | ok mc =>
      rw [Run.andThen_result_of_ok _ _ mc hm, Run.andThen_result_of_ok _ _ r hr]
      cases hi : (identityRef r).result with
      | error e =>
        obtain ⟨m, rfl⟩ := Run.error_of_noPanic _ (identityRef_noPanic r) e hi
        exact ⟨m, Run.andThen_result_error _ _ _ hi⟩
      | ok nm => exact absurd ((identityRef_ok r nm).mp hi).1 hk

theorem contains_iff {α : Type} [DecidableEq α] (s : List α) (v : α) :
    contains s v = true ↔ v ∈ s := by
  induction s with
  | nil => simp [contains]
  | cons vv s ih =>
    by_cases h : v = vv
    · simp [contains, h]
    · simp [contains, h, ih]

theorem contains_keys_iff (m : GoMap V) (k : String) :
    contains (keys m) k = true ↔ (m.get? k).isSome = true := by
  rw [contains_iff]
  cases m with
  | none => simp [keys, GoMap.get?]
  | some a =>
    simp only [keys, GoMap.get?]
    rw [← AList.mem_keys, AList.lookup_isSome]

theorem keys_nodup (m : GoMap V) : (keys m).Nodup := by
  cases m with
  | none => simp [keys]
  | some a => exact a.keys_nodup

theorem keys_length (m : GoMap V) : (keys m).length = m.len := by
  cases m with
  | none => rfl
  | some a => simp [keys, GoMap.len, AList.keys, List.keys]

/-- A map of length 1 has one key, and indexing with it gives its value. -/
theorem single_of_len_one [Inhabited V] (m : GoMap V) (h : m.len = 1) :
    ∃ k v, keys m = [k] ∧ m.get? k = some v ∧ m.get k = v
      ∧ ∀ k2, (m.get? k2).isSome = true → k2 = k := by
  cases m with
  | none => simp [GoMap.len] at h
  | some a =>
    obtain ⟨entries, hnd⟩ := a
    simp only [GoMap.len] at h
    match entries, hnd, h with
    | [⟨k, v⟩], hnd, _ =>
      refine ⟨k, v, rfl, ?_, ?_, ?_⟩
      · simp [GoMap.get?, AList.lookup, List.dlookup]
      · simp [GoMap.get, GoMap.get?, AList.lookup, List.dlookup]
      · intro k2 hk2
        simp only [GoMap.get?, AList.lookup, List.dlookup] at hk2
        by_contra hne
        have : ¬ k = k2 := fun e => hne e.symm
        simp [this] at hk2

theorem secretCloudsOf_ok (w : World V) (secret : Secret) (c : Clouds V)
    (h : (secretCloudsOf w secret).result = .ok c) :
    c.clouds.len = 1 ∧ ∃ y, secret.data "clouds.yaml" = some y ∧ w.yamlUnmarshal y = .ok c := by
  unfold secretCloudsOf at h
  split at h
  · simp at h
  · rename_i y hy
    simp only [Run.bind_eq, Run.andThen_result_ok, Run.attempt_result_ok] at h
    obtain ⟨c2, hc2, h⟩ := h
    split at h
    · simp at h
    · rename_i h0
      split at h
      · simp at h
      · rename_i h1
        simp only [Run.ret_result, Except.ok.injEq] at h
        subst h
        exact ⟨by omega, y, hy, hc2⟩

/-- What the cloud-count check does with a decoded document. -/
theorem secretCloudsOf_decoded (w : World V) (secret : Secret) (y : Bytes) (c : Clouds V)
    (hy : secret.data "clouds.yaml" = some y) (hu : w.yamlUnmarshal y = .ok c) :
    (secretCloudsOf w secret).result =
      if c.clouds.len = 0 then .error (.error (.secretNoCloud secret.name secret.ns))
      else if c.clouds.len > 1 then
        .error (.error (.secretManyClouds secret.name secret.ns (keys c.clouds).length
          (keys c.clouds)))
      else .ok c := by
  unfold secretCloudsOf
  rw [hy]
  simp only [Run.bind_eq, Run.andThen, Run.attempt, hu]
  split
  · rfl
  · split <;> rfl

theorem gather_ok (w : World V) (p : Parsed) (g : Gathered V)
    (h : (gather w p).result = .ok g) :
    (fetchSecret w p).result = .ok g.toFetched
    ∧ (secretCloudsOf w g.secret).result = .ok g.secretClouds
    ∧ (readLocalClouds w p.cloudsFile).result = .ok g.localClouds := by
  simp only [gather, Run.bind_eq, Run.andThen_result_ok, Run.ret_result,
    Except.ok.injEq] at h
  obtain ⟨f, hf, sc, hsc, lc, hlc, rfl⟩ := h
  exact ⟨hf, hsc, hlc⟩

/-- The calls made before the merge step: lookups, the secret GET, and the
read of the clouds file. -/
theorem gather_events (w : World V) (p : Parsed) :
    ∀ ev ∈ (gather w p).events,
      ev.isLookup = true ∨ (∃ ns nm, ev = .secretGet ns nm) ∨ ev = .readFile p.cloudsFile := by
  intro ev hev
  simp only [gather, fetchSecret, Run.bind_eq, Run.mem_events_andThen, checkArgs_events,
    newClients_events, resolveManagementCluster_events, identityRef_events,
    secretCloudsOf_events, readLocalClouds_events,
    List.not_mem_nil, false_or, Run.call_events, List.mem_singleton, Run.ret_events,
    and_false, exists_false, or_false] at hev
  rcases hev with ⟨cluster, -, -, -, mc, -, h⟩ | ⟨f, -, sc, -, h⟩
  · rcases h with h | ⟨r, -, nm, -, h⟩
    · exact Or.inl (findOpenStackCluster_events w p.ns cluster _ h)
    · exact Or.inr (Or.inl ⟨_, _, h⟩)
  · exact Or.inr (Or.inr h)

theorem fileAfter_of_no_write (path : String) (before : Option Bytes) (evs : List Event)
    (h : ∀ q data, Event.writeFile q data ∉ evs) : fileAfter path before evs = before := by
  induction evs with
  | nil => rfl
  | cons ev evs ih =>
    have ih2 := ih (fun q data hm => h q data (List.mem_cons_of_mem _ hm))
    cases ev with
    | writeFile q data => exact absurd (List.mem_cons_self _ _) (h q data)
    | _ => simpa [fileAfter] using ih2

theorem mergeStep_conflict [Inhabited V] (file cloudName : String) (sc lc : Clouds V)
    (hc : contains (keys lc.clouds) cloudName = true) :
    mergeStep file false cloudName sc lc = ⟨[], .error (.error (.cloudExists cloudName file))⟩ := by
  simp only [mergeStep, Run.bind_eq, hc, ↓reduceIte]
  rfl

theorem mergeStep_write [Inhabited V] (file : String) (force : Bool) (cloudName : String)
    (sc lc : Clouds V) (m : AList (fun _ : String => V)) (k : String) (rest : List String)
    (hl : lc.clouds = some m) (hk : keys sc.clouds = k :: rest)
    (hp : contains (keys lc.clouds) cloudName = false ∨ force = true) :
    (mergeStep file force cloudName sc lc).result
      = .ok ⟨some (m.insert cloudName (sc.clouds.get k))⟩ := by
  simp only [mergeStep, Run.bind_eq, hk, hl, index, GoMap.set]
  cases hc : contains (keys (some m)) cloudName
  · simp [Run.andThen, Run.emit, Run.lift, Run.ret]
  · rw [hl, hc] at hp
    have hf : force = true := by simpa using hp
    simp [hf, Run.andThen, Run.emit, Run.lift, Run.ret]

theorem mergeStep_nil [Inhabited V] (file : String) (force : Bool) (cloudName : String)
    (sc lc : Clouds V) (k : String) (rest : List String)
    (hl : lc.clouds = none) (hk : keys sc.clouds = k :: rest) :
    mergeStep file force cloudName sc lc
      = ⟨[.printWriting cloudName file], .error (.panic .nilMapAssign)⟩ := by
  simp only [mergeStep, Run.bind_eq, hk, hl, index, GoMap.set]
  simp [keys, contains, Run.andThen, Run.emit, Run.lift]

/-- Once the first part has returned, `mainE` is the merge step followed by
the write. -/
theorem mainE_of_gather_ok [Inhabited V] (w : World V) (p : Parsed) (g : Gathered V)
    (hg : (gather w p).result = .ok g) :
    mainE w p =
      ⟨(gather w p).events ++
          ((mergeStep p.cloudsFile p.force g.cloudName g.secretClouds g.localClouds).andThen
            (writeClouds w p.cloudsFile g.cloudName)).events,
        ((mergeStep p.cloudsFile p.force g.cloudName g.secretClouds g.localClouds).andThen
            (writeClouds w p.cloudsFile g.cloudName)).result⟩ := by
  simp only [mainE, Run.bind_eq]
  rw [Run.andThen_of_ok _ _ g hg]

/-- The merge on an allocated local map: the new key holds the value of the
single cloud of the secret, every other key is as before. -/
theorem mergeStep_frame [Inhabited V] (file : String) (force : Bool) (cloudName : String)
    (sc lc : Clouds V) (m : AList (fun _ : String => V))
    (hl : lc.clouds = some m) (h1 : sc.clouds.len = 1)
    (hp : contains (keys lc.clouds) cloudName = false ∨ force = true) :
    ∃ doc k v, (mergeStep file force cloudName sc lc).result = .ok doc
      ∧ keys sc.clouds = [k] ∧ sc.clouds.get? k = some v
      ∧ doc.clouds.get? cloudName = some v
      ∧ ∀ k2, k2 ≠ cloudName → doc.clouds.get? k2 = lc.clouds.get? k2 := by
  obtain ⟨k, v, hk, hget?, hget, -⟩ := single_of_len_one sc.clouds h1
  refine ⟨_, k, v, mergeStep_write file force cloudName sc lc m k [] hl hk hp, hk, hget?, ?_, ?_⟩
  · simp [GoMap.get?, hget]
  · intro k2 hne
    simp [GoMap.get?, hl, AList.lookup_insert_ne hne]

theorem fetchSecret_events (w : World V) (p : Parsed) :
    ∀ ev ∈ (fetchSecret w p).events, ev.isLookup = true ∨ ∃ ns nm, ev = .secretGet ns nm := by
  intro ev hev
  simp only [fetchSecret, Run.bind_eq, Run.mem_events_andThen, checkArgs_events,
    newClients_events, resolveManagementCluster_events, identityRef_events,
    List.not_mem_nil, false_or, Run.call_events, List.mem_singleton, Run.ret_events,
    and_false, exists_false, or_false] at hev
  obtain ⟨cluster, -, -, -, mc, -, h⟩ := hev
  rcases h with h | ⟨r, -, nm, -, h⟩
  · exact Or.inl (findOpenStackCluster_events w p.ns cluster _ h)
  · exact Or.inr ⟨_, _, h⟩

/-- An error of the cloud-count check is the error of `mainE`, and nothing is
called after the secret GET. -/
theorem mainE_of_secret_error [Inhabited V] (w : World V) (p : Parsed) (f : Fetched)
    (e : Fault) (hf : (fetchSecret w p).result = .ok f)
    (he : (secretCloudsOf w f.secret).result = .error e) :
    mainE w p = ⟨(fetchSecret w p).events, .error e⟩ := by
  have hg : gather w p = ⟨(fetchSecret w p).events, .error e⟩ := by
    simp only [gather, Run.bind_eq]
    rw [Run.andThen_of_ok _ _ f hf, Run.andThen_of_error _ _ e he, secretCloudsOf_events]
    simp
  simp only [mainE, Run.bind_eq]
  rw [Run.andThen_of_error _ _ e (by rw [hg]), hg]

theorem mem_gather_events_of_secret_ok (w : World V) (p : Parsed) (f : Fetched)
    (c : Clouds V) (hf : (fetchSecret w p).result = .ok f)
    (hc : (secretCloudsOf w f.secret).result = .ok c) :
    Event.readFile p.cloudsFile ∈ (gather w p).events := by
  simp only [gather, Run.bind_eq, Run.mem_events_andThen, readLocalClouds_events,
    List.mem_singleton]
  exact Or.inr ⟨f, hf, Or.inr ⟨c, hc, Or.inl trivial⟩⟩

theorem mem_mainE_events_of_gather [Inhabited V] (w : World V) (p : Parsed) (ev : Event)
    (h : ev ∈ (gather w p).events) : ev ∈ (mainE w p).events := by
  simp only [mainE, Run.bind_eq, Run.mem_events_andThen]
  exact Or.inl h

/-- A run that gets to the merge step with a nil local map panics on the
assignment and writes nothing. -/
theorem mainE_nil_local [Inhabited V] (w : World V) (p : Parsed) (g : Gathered V)
    (hg : (gather w p).result = .ok g) (hl : g.localClouds.clouds = none) :
    (mainE w p).result = .error (.panic .nilMapAssign)
    ∧ ∀ path data, Event.writeFile path data ∉ (mainE w p).events := by
  obtain ⟨-, hsc, -⟩ := gather_ok w p g hg
  have hlen := (secretCloudsOf_ok w g.secret g.secretClouds hsc).1
  obtain ⟨k, v, hk, -, -, -⟩ := single_of_len_one g.secretClouds.clouds hlen
  have hmerge := mergeStep_nil p.cloudsFile p.force g.cloudName g.secretClouds g.localClouds
    k [] hl hk
  have hmain := mainE_of_gather_ok w p g hg
  rw [Run.andThen_of_error _ _ _ (by rw [hmerge]), hmerge] at hmain
  refine ⟨by rw [hmain], ?_⟩
  intro path data hmem
  rw [hmain] at hmem
  simp only [List.mem_append, List.mem_singleton] at hmem
  rcases hmem with hmem | hmem
  · rcases gather_events w p _ hmem with h | ⟨_, _, h⟩ | h
    · simp [Event.isLookup] at h
    · cases h
    · cases h
  · cases hmem

/-- How `findOpenStackCluster` can return a resource: from the GET when a
namespace is given, otherwise from a listing with exactly one item of that
name. -/
theorem findOpenStackCluster_ok (w : World V) (ns name : String) (r : Unstructured)
    (h : (findOpenStackCluster w ns name).result = .ok r) :
    (ns ≠ "" ∧ ∃ gvr, w.resourceGet gvr ns name = .ok r)
    ∨ (ns = "" ∧ ∃ gvr items, w.resourceList gvr = .ok items ∧ nameCount name items = 1) := by
  have hlen : ns.length = 0 ↔ ns = "" := length_eq_zero _
  simp only [findOpenStackCluster, Run.bind_eq, Run.andThen_result_ok] at h
  obtain ⟨gvr, -, h⟩ := h
  by_cases hns : ns = ""
  · right
    rw [if_neg (by simpa [hlen] using hns)] at h
    simp only [Run.andThen_result_ok, Run.call_result_ok] at h
    obtain ⟨items, hitems, h⟩ := h
    refine ⟨hns, gvr, items, hitems, ?_⟩
    rw [scan_count] at h
    by_cases h0 : nameCount name items = 0
    · simp [h0] at h
    · by_cases h1 : nameCount name items > 1
      · simp [h0, h1] at h
      · omega
  · left
    rw [if_pos (by simpa [hlen] using hns)] at h
    exact ⟨hns, gvr, (Run.call_result_ok _ _ _ _).mp h⟩

theorem exists_of_nameCount_pos (name : String) (items : List Unstructured)
    (h : 0 < nameCount name items) : ∃ r ∈ items, r.name = name := by
  unfold nameCount at h
  obtain ⟨r, hr, hn⟩ := List.countP_pos_iff.mp h
  exact ⟨r, hr, by simpa using hn⟩

/-- Against a server without empty names, the cluster name of a run that has
found its resource is not empty. -/
theorem cluster_ne_empty (w : World V) (ns name : String) (r : Unstructured)
    (hw : w.NamesNonEmpty)
    (h : (findOpenStackCluster w ns name).result = .ok r) : name ≠ "" := by
  intro hname
  subst hname
  rcases findOpenStackCluster_ok w ns "" r h with ⟨-, gvr, hget⟩ | ⟨-, gvr, items, hl, hc⟩
  · exact hw.2 gvr ns r hget
  · obtain ⟨x, hx, hxn⟩ := exists_of_nameCount_pos "" items (by omega)
    exact hw.1 gvr items hl x hx hxn

/-- The demonstration world serving the single cluster `org-a/c1` has no empty
names. -/
theorem demoWorld_namesNonEmpty (hostname : String) (secretDoc localDoc : Clouds String) :
    (demoWorld hostname [clusterObject "org-a" "c1" "Secret" "c1-cloud"]
      secretDoc localDoc).NamesNonEmpty := by
  constructor
  · intro gvr items h r hr
    simp only [demoWorld, Except.ok.injEq] at h
    subst h
    simp only [List.mem_singleton] at hr
    subst hr
    decide
  · intro gvr ns r
    simp [demoWorld, clusterObject, List.find?]

end StageLemmas

/-! ## Theorems -/

/-- C1 (the code at the failing input): the local document has no `clouds`
key, so its map is nil; the cloud name is absent, the step goes on to write,
and the assignment at main.go:156 panics: no document is produced. -/
theorem mergeStep_nil_local :
    contains (keys (⟨none⟩ : Clouds String).clouds) "foo-c1" = false
    ∧ mergeStep "/home/u/.config/openstack/clouds.yaml" false "foo-c1"
        ⟨mapOf [("openstack", "creds")]⟩ (⟨none⟩ : Clouds String)
      = ⟨[.printWriting "foo-c1" "/home/u/.config/openstack/clouds.yaml"],
          .error (.panic .nilMapAssign)⟩ := by
  constructor
  · decide
  · rfl

/-- C2: when the decoded local document already has the synthesized key (a
lookup of the key in its map succeeds), the check of `mainE` detects it;
without --force `mainE` returns the "already exists ... re-run with --force"
error, writes nothing, and leaves the content of the clouds file as it was;
with --force the merge step does not fail, the key of the document it produces
holds the value of the single cloud of the secret, and that document,
serialized, is what is written to the clouds file. -/
theorem mainE_existing_cloud {V : Type} [Inhabited V] (w : World V) (p : Parsed)
    (g : Gathered V)
    (hg : (gather w p).result = .ok g)
    (hc : (g.localClouds.clouds.get? g.cloudName).isSome = true) :
    contains (keys g.localClouds.clouds) g.cloudName = true
    ∧ (p.force = false →
      (mainE w p).result = .error (.error (.cloudExists g.cloudName p.cloudsFile))
      ∧ (∀ path data, Event.writeFile path data ∉ (mainE w p).events)
      ∧ (∀ before, fileAfter p.cloudsFile before (mainE w p).events = before))
    ∧ (p.force = true →
      ∃ doc k v,
        (mergeStep p.cloudsFile true g.cloudName g.secretClouds g.localClouds).result = .ok doc
        ∧ keys g.secretClouds.clouds = [k] ∧ g.secretClouds.clouds.get? k = some v
        ∧ doc.clouds.get? g.cloudName = some v
        ∧ (∀ k2, k2 ≠ g.cloudName → doc.clouds.get? k2 = g.localClouds.clouds.get? k2)
        ∧ (∀ data, w.yamlMarshal doc = .ok data →
            Event.writeFile p.cloudsFile data ∈ (mainE w p).events
            ∧ (w.writeFile p.cloudsFile data = none → (mainE w p).result = .ok ())))
    ∧ (∀ q cn file, (MainError.cloudExists cn file).message q
        = "cloud " ++ q cn ++ " already exists in " ++ file
          ++ ", re-run with --force to overwrite\n") := by
  have hmain := mainE_of_gather_ok w p g hg
  have hcont : contains (keys g.localClouds.clouds) g.cloudName = true :=
    (contains_keys_iff _ _).mpr hc
  refine ⟨hcont, ?_, ?_, fun _ _ _ => rfl⟩
  · intro hforce
    have hmerge := mergeStep_conflict p.cloudsFile g.cloudName g.secretClouds g.localClouds hcont
    rw [hforce] at hmain
    rw [Run.andThen_of_error _ _ _ (by rw [hmerge]), hmerge] at hmain
    have hnow : ∀ path data, Event.writeFile path data ∉ (mainE w p).events := by
      intro path data hmem
      rw [hmain] at hmem
      simp only [List.append_nil] at hmem
      rcases gather_events w p _ hmem with h | ⟨_, _, h⟩ | h
      · simp [Event.isLookup] at h
      · cases h
      · cases h
    refine ⟨by rw [hmain], hnow, fun before => fileAfter_of_no_write _ _ _ hnow⟩
  · intro hforce
    obtain ⟨hf, hsc, -⟩ := gather_ok w p g hg
    have hlen := (secretCloudsOf_ok w g.secret g.secretClouds hsc).1
    cases hl : g.localClouds.clouds with
    | none => simp [hl, GoMap.get?] at hc
    | some m =>
      obtain ⟨doc, k, v, hdoc, hk, hv, hnew, hold⟩ :=
        mergeStep_frame p.cloudsFile true g.cloudName g.secretClouds g.localClouds m hl hlen
          (Or.inr rfl)
      refine ⟨doc, k, v, hdoc, hk, hv, hnew, by rw [← hl]; exact hold, ?_⟩
      intro data hdata
      rw [hforce] at hmain
      rw [hmain]
      rw [Run.andThen_of_ok _ _ doc hdoc]
      simp only [writeClouds, Run.bind_eq]
      rw [Run.andThen_of_ok _ _ data ((Run.attempt_result_ok _ _ _).mpr hdata)]
      constructor
      · cases hw : w.writeFile p.cloudsFile data <;> simp [Run.andThen, Run.emit]
      · intro hw
        simp [hw, Run.andThen, Run.emit]

/-- Witness of C2: the local document has the clouds `a` and `foo-c1`, in that
order.  Without --force the run ends with the conflict error and the file
keeps its content; with --force the run ends normally, the serialized document
is written, and in the merged document `foo-c1` holds the credentials of the
secret while `a` is as before. -/
theorem mainE_existing_cloud_witness :
    ((mapOf [("a", "x"), ("foo-c1", "old")]).get? "foo-c1").isSome = true
    ∧ (mainE (demoWorld "api.foo.example.com" [clusterObject "org-a" "c1" "Secret" "c1-cloud"]
          ⟨mapOf [("openstack", "creds")]⟩ ⟨mapOf [("a", "x"), ("foo-c1", "old")]⟩)
        (demoParsed false "" "" ["login", "c1"])).result
        = .error (.error (.cloudExists "foo-c1" "/home/u/.config/openstack/clouds.yaml"))
    ∧ fileAfter "/home/u/.config/openstack/clouds.yaml" (some "local")
        (mainE (demoWorld "api.foo.example.com" [clusterObject "org-a" "c1" "Secret" "c1-cloud"]
          ⟨mapOf [("openstack", "creds")]⟩ ⟨mapOf [("a", "x"), ("foo-c1", "old")]⟩)
        (demoParsed false "" "" ["login", "c1"])).events = some "local"
    ∧ (∃ doc : Clouds String,
        (mergeStep "/home/u/.config/openstack/clouds.yaml" true "foo-c1"
          ⟨mapOf [("openstack", "creds")]⟩ ⟨mapOf [("a", "x"), ("foo-c1", "old")]⟩).result
          = .ok doc
        ∧ doc.clouds.get? "foo-c1" = some "creds"
        ∧ doc.clouds.get? "a" = some "x"
        ∧ Event.writeFile "/home/u/.config/openstack/clouds.yaml" "written"
            ∈ (mainE (demoWorld "api.foo.example.com"
                [clusterObject "org-a" "c1" "Secret" "c1-cloud"]
                ⟨mapOf [("openstack", "creds")]⟩ ⟨mapOf [("a", "x"), ("foo-c1", "old")]⟩)
              (demoParsed true "" "" ["login", "c1"])).events
        ∧ (mainE (demoWorld "api.foo.example.com"
                [clusterObject "org-a" "c1" "Secret" "c1-cloud"]
                ⟨mapOf [("openstack", "creds")]⟩ ⟨mapOf [("a", "x"), ("foo-c1", "old")]⟩)
              (demoParsed true "" "" ["login", "c1"])).result = .ok ()) := by
  have hno := (mainE_existing_cloud
    (demoWorld "api.foo.example.com" [clusterObject "org-a" "c1" "Secret" "c1-cloud"]
      ⟨mapOf [("openstack", "creds")]⟩ ⟨mapOf [("a", "x"), ("foo-c1", "old")]⟩)
    (demoParsed false "" "" ["login", "c1"])
    (demoGathered "foo" ⟨mapOf [("openstack", "creds")]⟩ ⟨mapOf [("a", "x"), ("foo-c1", "old")]⟩)
    rfl (by decide)).2.1 rfl
  have hyes := (mainE_existing_cloud
    (demoWorld "api.foo.example.com" [clusterObject "org-a" "c1" "Secret" "c1-cloud"]
      ⟨mapOf [("openstack", "creds")]⟩ ⟨mapOf [("a", "x"), ("foo-c1", "old")]⟩)
    (demoParsed true "" "" ["login", "c1"])
    (demoGathered "foo" ⟨mapOf [("openstack", "creds")]⟩ ⟨mapOf [("a", "x"), ("foo-c1", "old")]⟩)
    rfl (by decide)).2.2.1 rfl
  obtain ⟨doc, k, v, hdoc, hk, hv, hnew, hold, hwrite⟩ := hyes
  have hk2 : k = "openstack" := by
    have : [k] = ["openstack"] := hk.symm.trans (by decide)
    simpa using this
  subst hk2
  have hv2 : v = "creds" := by
    have : some v = some "creds" := hv.symm.trans (by decide)
    simpa using this
  subst hv2
  have ha := hold "a" (by decide)
  have hw := hwrite "written" rfl
  exact ⟨by decide, hno.1, hno.2.2 _, doc, hdoc, hnew, ha.trans (by decide), hw.1, hw.2 rfl⟩

/-- C3 (the code at the failing input): two clusters are listed, `c1` in
`org-a` then `c2` in `org-b`; looking up `c1` without a namespace, with one
range variable for the whole loop, returns the object of `c2`. -/
theorem findOpenStackCluster_unique_not_last :
    (findOpenStackCluster
      (demoWorld "api.foo.example.com"
        [clusterObject "org-a" "c1" "Secret" "c1-cloud",
         clusterObject "org-b" "c2" "Secret" "c2-cloud"]
        ⟨mapOf [("openstack", "creds")]⟩ ⟨mapOf []⟩) "" "c1").result
      = .ok (clusterObject "org-b" "c2" "Secret" "c2-cloud") := by
  rfl

/-- C4: after a successful discovery and listing, without a namespace,
`findOpenStackCluster` fails exactly when the number of items with the
requested name is not 1: with the "not found" error when it is 0 and with the
ambiguity error (which names the --namespace flag) when it is 2 or more. -/
theorem findOpenStackCluster_count {V : Type} (w : World V) (name : String) (gvr : GVR)
    (items : List Unstructured)
    (hg : (findOpenStackClusterGVR w).result = .ok gvr)
    (hl : w.resourceList gvr = .ok items) :
    ((∃ e, (findOpenStackCluster w "" name).result = .error e) ↔ nameCount name items ≠ 1)
    ∧ (nameCount name items = 0 →
        (findOpenStackCluster w "" name).result = .error (.error (.clusterNotFound name)))
    ∧ (2 ≤ nameCount name items →
        (findOpenStackCluster w "" name).result = .error (.error (.clusterAmbiguous name)))
    ∧ (∀ q, (MainError.clusterNotFound name).message q
        = "cluster with name " ++ q name ++ " not found")
    ∧ (∀ q, (MainError.clusterAmbiguous name).message q
        = "found more than one cluster with name " ++ q name
          ++ ", try re-running with --namespace flag") := by
  have hres := findOpenStackCluster_list w name gvr items hg hl
  have hok := scan_ok w.loopVar name items
  refine ⟨?_, ?_, ?_, fun _ => rfl, fun _ => rfl⟩
  · constructor
    · rintro ⟨e, he⟩ h1
      have hr := hok.2 (hok.1 (by rw [scan_count]; omega))
      rw [hres] at he
      cases hd : (scan w.loopVar name items).deref with
      | none => simp [hd] at hr
      | some r => simp [h1, hd] at he
    · intro h1
      by_cases h0 : nameCount name items = 0
      · exact ⟨_, by rw [hres, if_pos h0]⟩
      · have h2 : nameCount name items > 1 := by omega
        exact ⟨_, by rw [hres, if_neg h0, if_pos h2]⟩
  · intro h0
    rw [hres, if_pos h0]
  · intro h2
    have h0 : ¬ nameCount name items = 0 := by omega
    have h2 : nameCount name items > 1 := by omega
    rw [hres, if_neg h0, if_pos h2]

/-- Witness of C4: one cluster listed; its name is found, another name is not. -/
theorem findOpenStackCluster_count_witness :
    nameCount "c9" [clusterObject "org-a" "c1" "Secret" "c1-cloud"] = 0
    ∧ (findOpenStackCluster
        (demoWorld "api.foo.example.com" [clusterObject "org-a" "c1" "Secret" "c1-cloud"]
          ⟨mapOf [("openstack", "creds")]⟩ ⟨mapOf []⟩) "" "c9").result
        = .error (.error (.clusterNotFound "c9")) :=
  ⟨by decide,
   (findOpenStackCluster_count
      (demoWorld "api.foo.example.com" [clusterObject "org-a" "c1" "Secret" "c1-cloud"]
        ⟨mapOf [("openstack", "creds")]⟩ ⟨mapOf []⟩) "c9"
      ⟨group, "v1alpha4", resource⟩ [clusterObject "org-a" "c1" "Secret" "c1-cloud"]
      rfl rfl).2.1 (by decide)⟩

/-- C6 (as stated, refuted): with no positional argument at all and an empty
kubeconfig path, `mainE` reports that the kubeconfig is not set, not the usage
error. -/
theorem mainE_usage_counterexample :
    (demoParsed false "" "" []).args.length ≠ 2
    ∧ (mainE (demoWorld "api.foo.example.com" [] ⟨mapOf [("openstack", "creds")]⟩ ⟨mapOf []⟩)
        { demoParsed false "" "" [] with kubeconfig := "" }).result
        = .error (.error .kubeconfigNotSet)
    ∧ (mainE (demoWorld "api.foo.example.com" [] ⟨mapOf [("openstack", "creds")]⟩ ⟨mapOf []⟩)
        { demoParsed false "" "" [] with kubeconfig := "" }).result
        ≠ .error (.error .usage) := by
  decide

/-- C6 (amended): when the positional arguments are not exactly two or the
first one is not "login", `mainE` fails before any call: with the usage error
if the kubeconfig path and the clouds-file path are both non-empty, with the
kubeconfig error if the kubeconfig path is empty, and otherwise with the
clouds-file error. -/
theorem mainE_usage {V : Type} [Inhabited V] (w : World V) (p : Parsed)
    (h : p.args.length ≠ 2 ∨ p.args[0]? ≠ some "login") :
    (mainE w p).events = []
    ∧ (mainE w p).result = .error (.error
        (if p.kubeconfig = "" then .kubeconfigNotSet
         else if p.cloudsFile = "" then .cloudsFileNotSet
         else .usage))
    ∧ (∀ q, MainError.usage.message q
        = "usage: kubectl-openstack login [-n NAMESPCE] OPENSTACKCLUSTER") := by
  have hk : p.kubeconfig.length = 0 ↔ p.kubeconfig = "" := length_eq_zero _
  have hc : p.cloudsFile.length = 0 ↔ p.cloudsFile = "" := length_eq_zero _
  have hres : (checkArgs p).result = .error (.error
      (if p.kubeconfig = "" then .kubeconfigNotSet
       else if p.cloudsFile = "" then .cloudsFileNotSet
       else .usage)) := by
    rw [checkArgs_eq]
    simp only [hk, hc]
    by_cases h1 : p.kubeconfig = ""
    · simp [h1]
    · by_cases h2 : p.cloudsFile = ""
      · simp [h1, h2]
      · simp only [h1, h2, ↓reduceIte]
        rcases hargs : p.args with _ | ⟨a0, _ | ⟨a1, _ | ⟨a2, rest⟩⟩⟩
        · rfl
        · rfl
        · have ha : a0 ≠ "login" := by
            rcases h with h | h
            · simp [hargs] at h
            · simpa [hargs] using h
          simp [ha]
        · rfl
  refine ⟨?_, ?_, fun q => by simp [MainError.message, program]⟩
  · simp only [mainE, gather, fetchSecret, Run.bind_eq]
    rw [Run.andThen_of_error _ _ _ hres, Run.andThen_of_error _ _ _ rfl,
      Run.andThen_of_error _ _ _ rfl]
    exact checkArgs_events p
  · apply mainE_of_fetchSecret_error
    simp only [fetchSecret, Run.bind_eq]
    exact Run.andThen_result_error _ _ _ hres

/-- Witness of C6 (amended): three positional arguments, both paths set. -/
theorem mainE_usage_witness :
    (demoParsed false "" "" ["login", "c1", "c2"]).args.length ≠ 2
    ∧ (mainE (demoWorld "api.foo.example.com" [] ⟨mapOf [("openstack", "creds")]⟩ ⟨mapOf []⟩)
        (demoParsed false "" "" ["login", "c1", "c2"])).result = .error (.error .usage) :=
  ⟨by decide,
   (mainE_usage (demoWorld "api.foo.example.com" [] ⟨mapOf [("openstack", "creds")]⟩ ⟨mapOf []⟩)
      (demoParsed false "" "" ["login", "c1", "c2"]) (Or.inl (by decide))).2.1⟩

/-- C7: for a fetched secret whose `clouds.yaml` payload decodes, the run gets
past the cloud-count check (and goes on to read the local clouds file) exactly
when the decoded mapping has one entry; with no entry `mainE` fails with the
error that ends in "got 0"; with two or more it fails with the error that
carries the count and the comma-separated keys, each key of the mapping once. -/
theorem mainE_cloud_count {V : Type} [Inhabited V] (w : World V) (p : Parsed) (f : Fetched)
    (y : Bytes) (c : Clouds V)
    (hf : (fetchSecret w p).result = .ok f)
    (hy : f.secret.data "clouds.yaml" = some y)
    (hu : w.yamlUnmarshal y = .ok c) :
    ((secretCloudsOf w f.secret).result = .ok c ↔ c.clouds.len = 1)
    ∧ (Event.readFile p.cloudsFile ∈ (mainE w p).events ↔ c.clouds.len = 1)
    ∧ (c.clouds.len = 0 →
        (mainE w p).result = .error (.error (.secretNoCloud f.secret.name f.secret.ns)))
    ∧ (2 ≤ c.clouds.len →
        (mainE w p).result = .error (.error
          (.secretManyClouds f.secret.name f.secret.ns c.clouds.len (keys c.clouds))))
    ∧ (keys c.clouds).Nodup
    ∧ (keys c.clouds).length = c.clouds.len
    ∧ (∀ k, k ∈ keys c.clouds ↔ (c.clouds.get? k).isSome = true)
    ∧ (∀ q n ns, (MainError.secretNoCloud n ns).message q
        = "secret/" ++ n ++ " in " ++ ns ++ ": expected single cloud data, " ++ "got 0")
    ∧ (∀ q n ns count ks, (MainError.secretManyClouds n ns count ks).message q
        = "secret/" ++ n ++ " in " ++ ns ++ ": expected single cloud data, got "
          ++ toString count ++ " (" ++ String.intercalate ", " ks ++ ")") := by
  have hdec := secretCloudsOf_decoded w f.secret y c hy hu
  have h0 : c.clouds.len = 0 →
      (mainE w p).result = .error (.error (.secretNoCloud f.secret.name f.secret.ns)) := by
    intro h
    rw [mainE_of_secret_error w p f _ hf (by rw [hdec, if_pos h])]
  have h2 : 2 ≤ c.clouds.len →
      (mainE w p).result = .error (.error
        (.secretManyClouds f.secret.name f.secret.ns c.clouds.len (keys c.clouds))) := by
    intro h
    have hne : ¬ c.clouds.len = 0 := by omega
    have hgt : c.clouds.len > 1 := by omega
    rw [mainE_of_secret_error w p f _ hf (by rw [hdec, if_neg hne, if_pos hgt]), keys_length]
  have hiff : (secretCloudsOf w f.secret).result = .ok c ↔ c.clouds.len = 1 := by
    constructor
    · intro h
      exact (secretCloudsOf_ok w f.secret c h).1
    · intro h
      rw [hdec, if_neg (by omega), if_neg (by omega)]
  refine ⟨hiff, ?_, h0, h2, keys_nodup _, keys_length _, ?_, ?_, ?_⟩
  · constructor
    · intro hmem
      by_contra hne
      have herr : ∃ e, (secretCloudsOf w f.secret).result = .error e := by
        by_cases hz : c.clouds.len = 0
        · exact ⟨_, by rw [hdec, if_pos hz]⟩
        · exact ⟨_, by rw [hdec, if_neg hz, if_pos (by omega)]⟩
      obtain ⟨e, he⟩ := herr
      rw [mainE_of_secret_error w p f e hf he] at hmem
      rcases fetchSecret_events w p _ hmem with h | ⟨_, _, h⟩
      · simp [Event.isLookup] at h
      · cases h
    · intro h
      exact mem_mainE_events_of_gather w p _
        (mem_gather_events_of_secret_ok w p f c hf (hiff.mpr h))
  · intro k
    rw [← contains_keys_iff, contains_iff]
  · intro q n ns
    simp [MainError.message, String.append_assoc]
  · intro q n ns count ks
    simp [MainError.message, Join]

/-- Witness of C7: the secret of cluster `c1` holds two clouds. -/
theorem mainE_cloud_count_witness :
    (mainE (demoWorld "api.foo.example.com" [clusterObject "org-a" "c1" "Secret" "c1-cloud"]
        ⟨mapOf [("alpha", "a"), ("beta", "b")]⟩ ⟨mapOf []⟩)
      (demoParsed false "" "" ["login", "c1"])).result
      = .error (.error (.secretManyClouds "c1-cloud" "org-a" 2 ["alpha", "beta"])) :=
  (mainE_cloud_count
    (demoWorld "api.foo.example.com" [clusterObject "org-a" "c1" "Secret" "c1-cloud"]
      ⟨mapOf [("alpha", "a"), ("beta", "b")]⟩ ⟨mapOf []⟩)
    (demoParsed false "" "" ["login", "c1"])
    ⟨"c1", "foo", clusterObject "org-a" "c1" "Secret" "c1-cloud",
      ⟨"c1-cloud", "org-a", fun k => if k = "clouds.yaml" then some "org-a/c1-cloud" else none⟩⟩
    "org-a/c1-cloud" ⟨mapOf [("alpha", "a"), ("beta", "b")]⟩ rfl rfl rfl).2.2.2.1 (by decide)

/-- C8: a secret GET appears in the trace of `mainE` only for a resource that
was found and whose `spec.identityRef.kind` and `spec.identityRef.name` were
both read as non-empty strings, the kind being exactly "Secret"; the GET then
uses that name and the namespace of the resource.  When the kind of the found
resource does not read as "Secret", `mainE` returns an error and its trace has
no secret GET. -/
theorem mainE_secretGet_guarded {V : Type} [Inhabited V] (w : World V) (p : Parsed) :
    (∀ ns nm, Event.secretGet ns nm ∈ (mainE w p).events →
      ∃ cluster r, (checkArgs p).result = .ok cluster
        ∧ (findOpenStackCluster w p.ns cluster).result = .ok r
        ∧ unstructuredGetString r ["spec", "identityRef", "kind"] = .ok "Secret"
        ∧ unstructuredGetString r ["spec", "identityRef", "name"] = .ok nm
        ∧ nm ≠ "" ∧ ns = r.ns)
    ∧ (∀ cluster r, (checkArgs p).result = .ok cluster →
        (findOpenStackCluster w p.ns cluster).result = .ok r →
        unstructuredGetString r ["spec", "identityRef", "kind"] ≠ .ok "Secret" →
        (∃ m, (mainE w p).result = .error (.error m))
        ∧ ∀ ns nm, Event.secretGet ns nm ∉ (mainE w p).events) := by
  have h1 : ∀ ns nm, Event.secretGet ns nm ∈ (mainE w p).events →
      ∃ cluster r, (checkArgs p).result = .ok cluster
        ∧ (findOpenStackCluster w p.ns cluster).result = .ok r
        ∧ unstructuredGetString r ["spec", "identityRef", "kind"] = .ok "Secret"
        ∧ unstructuredGetString r ["spec", "identityRef", "name"] = .ok nm
        ∧ nm ≠ "" ∧ ns = r.ns := by
    intro ns nm h
    obtain ⟨cluster, r, hc, hr, hi, hns⟩ := fetchSecret_secretGet w p ns nm (mainE_secretGet w p ns nm h)
    obtain ⟨hkind, hname⟩ := (identityRef_ok r nm).mp hi
    exact ⟨cluster, r, hc, hr, hkind, hname, (unstructuredGetString_ok r _ nm hname).1, hns⟩
  refine ⟨h1, ?_⟩
  intro cluster r hc hr hk
  constructor
  · obtain ⟨m, hm⟩ := fetchSecret_error_of_kind w p cluster r hc hr hk
    exact ⟨m, mainE_of_fetchSecret_error w p _ hm⟩
  · intro ns nm hmem
    obtain ⟨cluster2, r2, hc2, hr2, hkind, -⟩ := h1 ns nm hmem
    rw [hc] at hc2
    cases hc2
    rw [hr] at hr2
    cases hr2
    exact hk hkind

/-- Witness of C8: the identity reference of the cluster is a ConfigMap. -/
theorem mainE_secretGet_guarded_witness :
    (∃ m, (mainE (demoWorld "api.foo.example.com"
          [clusterObject "org-a" "c1" "ConfigMap" "c1-cloud"]
          ⟨mapOf [("openstack", "creds")]⟩ ⟨mapOf []⟩)
        (demoParsed false "" "" ["login", "c1"])).result = .error (.error m))
    ∧ ∀ ns nm, Event.secretGet ns nm ∉ (mainE (demoWorld "api.foo.example.com"
          [clusterObject "org-a" "c1" "ConfigMap" "c1-cloud"]
          ⟨mapOf [("openstack", "creds")]⟩ ⟨mapOf []⟩)
        (demoParsed false "" "" ["login", "c1"])).events :=
  (mainE_secretGet_guarded (demoWorld "api.foo.example.com"
      [clusterObject "org-a" "c1" "ConfigMap" "c1-cloud"]
      ⟨mapOf [("openstack", "creds")]⟩ ⟨mapOf []⟩)
    (demoParsed false "" "" ["login", "c1"])).2 "c1"
    (clusterObject "org-a" "c1" "ConfigMap" "c1-cloud") (by decide) rfl (by decide)

/-- C9 (as stated, refuted): the API server hostname is "api.", no
--management-cluster flag is given, the cluster `c1` exists; the run gets to
the merge step and writes under the cloud name "-c1", whose management-cluster
part is empty. -/
theorem cloudName_counterexample :
    (demoParsed false "" "" ["login", "c1"]).managementCluster = ""
    ∧ getManagementCluster "https://api.:6443" "api." = .ok ""
    ∧ (mainE (demoWorld "api." [clusterObject "org-a" "c1" "Secret" "c1-cloud"]
        ⟨mapOf [("openstack", "creds")]⟩ ⟨mapOf [("old", "x")]⟩)
      (demoParsed false "" "" ["login", "c1"])).result = .ok ()
    ∧ Event.printWriting "-c1" "/home/u/.config/openstack/clouds.yaml"
        ∈ (mainE (demoWorld "api." [clusterObject "org-a" "c1" "Secret" "c1-cloud"]
            ⟨mapOf [("openstack", "creds")]⟩ ⟨mapOf [("old", "x")]⟩)
          (demoParsed false "" "" ["login", "c1"])).events := by
  decide

/-- C9 (amended): in a run that gets to the merge step, against an API server
without empty object names, the cloud name is the management cluster, "-", and
the second positional argument; its cluster-name part is not empty; its
management-cluster part is the --management-cluster flag when that is not
empty, and otherwise the second dot-separated label of the API server
hostname, which starts with "api."; so the management-cluster part is not
empty exactly when the flag or that label is not empty. -/
theorem cloudName_parts {V : Type} (w : World V) (p : Parsed) (g : Gathered V)
    (hw : w.NamesNonEmpty)
    (hg : (gather w p).result = .ok g) :
    g.cloudName = g.managementCluster ++ "-" ++ g.cluster
    ∧ p.args = ["login", g.cluster]
    ∧ g.cluster ≠ ""
    ∧ ((p.managementCluster ≠ "" ∧ g.managementCluster = p.managementCluster)
        ∨ (p.managementCluster = "" ∧ HasPrefix w.hostname "api." = true
            ∧ g.managementCluster = secondLabel w.hostname))
    ∧ (g.managementCluster ≠ "" ↔
        (p.managementCluster ≠ "" ∨ secondLabel w.hostname ≠ "")) := by
  obtain ⟨hf, -, -⟩ := gather_ok w p g hg
  obtain ⟨hc, hm, hr, -⟩ := fetchSecret_ok w p g.toFetched hf
  have hparts := (resolveManagementCluster_ok w p _).mp hm
  refine ⟨rfl, ((checkArgs_ok p _).mp hc).2.2, cluster_ne_empty w p.ns _ _ hw hr, ?_, ?_⟩
  · rcases hparts with ⟨h1, h2⟩ | h
    · exact Or.inl ⟨h1, h2⟩
    · exact Or.inr h
  · rcases hparts with ⟨h1, h2⟩ | ⟨h1, -, h3⟩
    · constructor
      · intro _
        exact Or.inl h1
      · intro _
        show g.toFetched.managementCluster ≠ ""
        rw [h2]
        exact h1
    · constructor
      · intro h
        right
        rw [← h3]
        exact h
      · rintro (h | h)
        · exact absurd h1 h
        · show g.toFetched.managementCluster ≠ ""
          rw [h3]
          exact h

/-- Witness of C9 (amended): the management cluster is inferred from the
hostname "api.foo.example.com"; both parts of "foo-c1" are non-empty. -/
theorem cloudName_parts_witness :
    (demoGathered "foo" ⟨mapOf [("openstack", "creds")]⟩ ⟨mapOf [("old", "x")]⟩).cloudName
      = "foo" ++ "-" ++ "c1"
    ∧ (demoGathered "foo" ⟨mapOf [("openstack", "creds")]⟩ ⟨mapOf [("old", "x")]⟩).cluster ≠ ""
    ∧ (demoGathered "foo" ⟨mapOf [("openstack", "creds")]⟩
        ⟨mapOf [("old", "x")]⟩).managementCluster ≠ "" := by
  have h := cloudName_parts
    (demoWorld "api.foo.example.com" [clusterObject "org-a" "c1" "Secret" "c1-cloud"]
      ⟨mapOf [("openstack", "creds")]⟩ ⟨mapOf [("old", "x")]⟩)
    (demoParsed false "" "" ["login", "c1"])
    (demoGathered "foo" ⟨mapOf [("openstack", "creds")]⟩ ⟨mapOf [("old", "x")]⟩)
    (demoWorld_namesNonEmpty _ _ _) rfl
  exact ⟨h.1, h.2.2.1, h.2.2.2.2.mpr (Or.inr (by decide))⟩

/-- C10 (the code at the failing input): the local clouds file is empty, so
the decoded document has a nil map; `mainE` prints the "Writing" notice and
then panics on the assignment at main.go:156; nothing is written. -/
theorem mainE_empty_local_file :
    (mainE (demoWorld "api.foo.example.com" [clusterObject "org-a" "c1" "Secret" "c1-cloud"]
        ⟨mapOf [("openstack", "creds")]⟩ ⟨none⟩)
      (demoParsed false "" "" ["login", "c1"])).result = .error (.panic .nilMapAssign)
    ∧ (mainE (demoWorld "api.foo.example.com" [clusterObject "org-a" "c1" "Secret" "c1-cloud"]
        ⟨mapOf [("openstack", "creds")]⟩ ⟨none⟩)
      (demoParsed false "" "" ["login", "c1"])).events
      = [.serverGroups,
         .resourceList ⟨"infrastructure.cluster.x-k8s.io", "v1alpha4", "openstackclusters"⟩,
         .secretGet "org-a" "c1-cloud",
         .readFile "/home/u/.config/openstack/clouds.yaml",
         .printWriting "foo-c1" "/home/u/.config/openstack/clouds.yaml"] := by
  decide

/-- C5: `getManagementCluster` returns an error exactly when the hostname does
not start with "api."; when it does, it returns (without an index fault) the
second dot-separated label of the hostname, the text between the first dot and
the second dot or the end; the hostname "api.foo.example.com" gives "foo". -/
theorem getManagementCluster_spec (url hostname : String) :
    ((∃ e, getManagementCluster url hostname = .error e) ↔ HasPrefix hostname "api." = false)
    ∧ (HasPrefix hostname "api." = false →
        getManagementCluster url hostname = .error (.error (.unrecognizedURL url)))
    ∧ (HasPrefix hostname "api." = true →
        getManagementCluster url hostname = .ok (secondLabel hostname))
    ∧ getManagementCluster url "api.foo.example.com" = .ok "foo" := by
  have hno : HasPrefix hostname "api." = false →
      getManagementCluster url hostname = .error (.error (.unrecognizedURL url)) := by
    intro h
    simp [getManagementCluster, h]
  have hyes : HasPrefix hostname "api." = true →
      getManagementCluster url hostname = .ok (secondLabel hostname) := by
    intro h
    obtain ⟨rest, rfl⟩ := hasPrefix_api hostname h
    exact getManagementCluster_api url rest
  refine ⟨?_, hno, hyes, ?_⟩
  · constructor
    · rintro ⟨e, he⟩
      by_contra hc
      have hp : HasPrefix hostname "api." = true := by simpa using hc
      rw [hyes hp] at he
      cases he
    · intro h
      exact ⟨_, hno h⟩
  · exact getManagementCluster_api url _

/-- Witness of C5: a hostname with the prefix and one without. -/
theorem getManagementCluster_spec_witness :
    HasPrefix "api.gs.example.io" "api." = true
    ∧ getManagementCluster "https://api.gs.example.io" "api.gs.example.io" = .ok "gs"
    ∧ HasPrefix "gs.example.io" "api." = false
    ∧ getManagementCluster "https://gs.example.io" "gs.example.io"
        = .error (.error (.unrecognizedURL "https://gs.example.io")) :=
  ⟨by decide,
   ((getManagementCluster_spec "https://api.gs.example.io" "api.gs.example.io").2.2.1
      (by decide)).trans (by decide),
   by decide,
   (getManagementCluster_spec "https://gs.example.io" "gs.example.io").2.1 (by decide)⟩

end KubectlOpenstack
